import Mathlib

/-! # Pod-name DNS plugin: a model of `example.go` and `kubelet_client.go`

The plugin keeps a directory of pod records, refreshed by a background loop
that polls the kubelet, and answers DNS queries under `cluster.local.` from
that directory.  The definitions below follow the Go source function by
function; panics of the Go runtime (index or slice bound out of range) are the
value `none`.
-/

set_option autoImplicit false

namespace KubeletDNS

/-! ## Go strings -/

/-- A Go `string` that holds valid UTF-8, given by its runes.  Strings decoded
from JSON and DNS names in presentation format are of this kind.  Indices of
the Go string are byte offsets into the UTF-8 encoding, see `len`. -/
abbrev GoString := List Char

/-- Go `len(s)`: the number of bytes of the UTF-8 encoding. -/
def len : GoString → Nat
  | [] => 0
  | c :: t => c.utf8Size + len t

/-- Go `strings.HasSuffix(s, suffix)`. -/
def HasSuffix (s suffix : GoString) : Bool :=
  suffix.isSuffixOf s

/-- Go `strings.LastIndex(s, substr)`: byte offset of the last occurrence of
`substr` in `s`, `-1` when there is none (and `len(s)` for the empty `substr`).
An occurrence of valid UTF-8 in valid UTF-8 starts at a rune boundary, so the
search runs over the runes and adds up their encoded sizes. -/
def LastIndex : GoString → GoString → Int
  | [], substr => if substr = [] then 0 else -1
  | c :: t, substr =>
    let r := LastIndex t substr
    if 0 ≤ r then r + (c.utf8Size : Int)
    else if substr.isPrefixOf (c :: t) then 0 else -1

/-- The size classes of the Go allocator (`runtime/sizeclasses.go`), in
bytes. -/
def sizeClasses : List Nat :=
  [8, 16, 24, 32, 48, 64, 80, 96, 112, 128, 144, 160, 176, 192, 208, 224, 240, 256, 288, 320,
   352, 384, 416, 448, 480, 512, 576, 640, 704, 768, 896, 1024, 1152, 1280, 1408, 1536, 1792,
   2048, 2304, 2688, 3072, 3200, 3456, 4096, 4864, 5120, 5376, 6144, 6528, 6784, 6912, 8192,
   9472, 9728, 10240, 10880, 12288, 13568, 14336, 16384, 18432, 19072, 20480, 21760, 24576,
   27264, 28672, 32768]

/-- Go `runtime.roundupsize`: the size of the block the allocator returns for
a request of `size` bytes, the first size class that fits, or whole pages of
8192 bytes above the classes. -/
def roundupsize (size : Nat) : Nat :=
  match sizeClasses.find? (fun c => decide (size ≤ c)) with
  | some c => c
  | none => (size + 8191) / 8192 * 8192

/-- The capacity of the slice `[]rune(s)` for a string of `n` runes, where the
slice does not outlive the expression, as in `string([]rune(s)[:k])`: the
32-rune buffer of `runtime.stringtoslicerune` on the stack when `n ≤ 32`, else
the block `runtime.rawruneslice` allocates for `4 * n` bytes. -/
def runeCap (n : Nat) : Nat :=
  if n ≤ 32 then 32 else roundupsize (4 * n) / 4

/-- Go `string([]rune(s)[:n])`: the first `n` RUNES of the rune slice.  The
slice expression checks `n` against the capacity `runeCap`; the runes between
the length and the capacity are the zero runes the runtime clears them to.  A
bound that is negative or beyond the capacity is the slice-bounds panic. -/
def runesTo (s : GoString) (n : Int) : Option GoString :=
  if 0 ≤ n ∧ n ≤ (runeCap s.length : Int) then
    some ((s ++ List.replicate (runeCap s.length - s.length) (Char.ofNat 0)).take n.toNat)
  else none

/-- Every rune is below 128, so byte offsets and rune offsets coincide. -/
def isASCII (s : GoString) : Bool :=
  s.all (fun c => decide (c.toNat < 128))

/-! ## Kubernetes pod data (the fields the plugin reads) -/

/-- Mirror of `v1.ContainerPort`. -/
structure ContainerPort where
  ContainerPort : Int
  deriving DecidableEq, Repr

/-- Mirror of `v1.Container`. -/
structure Container where
  Ports : List ContainerPort
  deriving DecidableEq, Repr

/-- Mirror of `v1.PodSpec`. -/
structure PodSpec where
  Containers : List Container
  deriving DecidableEq, Repr

/-- Mirror of `v1.PodStatus`. -/
structure PodStatus where
  PodIP : GoString
  deriving DecidableEq, Repr

/-- Mirror of `v1.Pod`; `Labels` is the Go map as an association list. -/
structure Pod where
  Name : GoString
  Labels : List (GoString × GoString)
  Spec : PodSpec
  Status : PodStatus
  deriving DecidableEq, Repr

/-- Go map read `pod.Labels[key]`: the zero value `""` for a missing key. -/
def Pod.label (pod : Pod) (key : GoString) : GoString :=
  (pod.Labels.lookup key).getD []

/-- The test `pods[idx].Labels["userPod"] == "true"`. -/
def Pod.isUserPod (pod : Pod) : Bool :=
  pod.label "userPod".toList == "true".toList

/-- Mirror of `PodRecord`. -/
structure PodRecord where
  Name : GoString
  Ip : GoString
  Port : Int
  deriving DecidableEq, Repr

/-! ## `GetUserPodRecords` -/

/-- The name computed at lines 137-141: cut at `strings.LastIndex(name, "-")`
when that index is positive. -/
def recordName (name : GoString) : Option GoString :=
  let last_index := LastIndex name ['-']
  if last_index > 0 then runesTo name last_index else some name

/-- Body of the loop of `GetUserPodRecords` for one labelled pod: the record
appended to `records`, or `none` when an index expression panics. -/
def userPodRecord (pod : Pod) : Option PodRecord :=
  match recordName pod.Name with
  | none => none
  | some name =>
    let ip := pod.Status.PodIP
    match pod.Spec.Containers with
    | [] => none
    | c :: _ =>
      match c.Ports with
      | [] => none
      | port :: _ => some { Name := name, Ip := ip, Port := port.ContainerPort }

/-- The loop of `GetUserPodRecords` over the remaining pods, `records` being
the slice built so far. -/
def GetUserPodRecords.loop : List Pod → List PodRecord → Option (List PodRecord)
  | [], records => some records
  | pod :: rest, records =>
    if pod.isUserPod then
      match userPodRecord pod with
      | none => none
      | some rc => GetUserPodRecords.loop rest (records ++ [rc])
    else GetUserPodRecords.loop rest records

/-- `Example.GetUserPodRecords`. -/
def GetUserPodRecords (pods : List Pod) : Option (List PodRecord) :=
  GetUserPodRecords.loop pods []

/-! ## Process environment and `GetEnvConfig` -/

/-- A Go `error` value; `none` is `nil`. -/
abbrev GoError := Option String

/-- The process environment read by `os.LookupEnv`. -/
abbrev Environ := List (GoString × GoString)

/-- Go `os.LookupEnv`. -/
def LookupEnv (env : Environ) (key : GoString) : Option GoString :=
  env.lookup key

/-- Go `strconv.Atoi` for a 64-bit `int`: an optional sign, then one or more
decimal digits, the value within the range of `int`; `none` is a non-nil
error. -/
def Atoi (s : GoString) : Option Int :=
  let neg := s.head? == some '-'
  let digits := if s.head? == some '-' ∨ s.head? == some '+' then s.tail else s
  if digits = [] ∨ ¬ digits.all Char.isDigit then none
  else
    let n : Nat := digits.foldl (fun n ch => n * 10 + (ch.toNat - 48)) 0
    let v : Int := if neg then -(n : Int) else (n : Int)
    if -(2 : Int) ^ 63 ≤ v ∧ v < (2 : Int) ^ 63 then some v else none

/-- `Example.GetEnvConfig`: the value and the error it returns. -/
def GetEnvConfig (env : Environ) (envVar : GoString) (default_val : Int) : Int × GoError :=
  match LookupEnv env envVar with
  | none => (default_val, none)
  | some valueStr =>
    match Atoi valueStr with
    | none => (default_val, some "strconv.Atoi: parsing failed")
    | some value => (value, none)

/-! ## DNS messages (the fields of `dns.Msg` the plugin reads or sets) -/

/-- Mirror of `dns.Question`. -/
structure Question where
  Name : GoString
  Qtype : Nat
  Qclass : Nat
  deriving DecidableEq, Repr

/-- Mirror of `dns.RR_Header` (`Rdlength` is filled in when packing). -/
structure RR_Header where
  Name : GoString
  Rrtype : Nat
  Class : Nat
  Ttl : Nat
  deriving DecidableEq, Repr

/-- A 4-byte `net.IP`. -/
abbrev IPv4 := List Nat

/-- Mirror of `dns.A`; the field `A` is `none` for a nil `net.IP`. -/
structure A where
  Hdr : RR_Header
  A : Option IPv4
  deriving DecidableEq, Repr

/-- Mirror of `dns.Msg`: the header bits, the question section and the answer
section, whose resource records are all of type `dns.A` here. -/
structure Msg where
  Id : Nat
  Response : Bool
  Opcode : Nat
  Authoritative : Bool
  Truncated : Bool
  RecursionDesired : Bool
  RecursionAvailable : Bool
  CheckingDisabled : Bool
  Rcode : Nat
  Question : List Question
  Answer : List A
  deriving DecidableEq, Repr

/-- Go `dns.TypeA`. -/
def TypeA : Nat := 1

/-- Go `dns.RcodeSuccess`. -/
def RcodeSuccess : Int := 0

/-- Go `dns.RcodeServerFailure`. -/
def RcodeServerFailure : Int := 2

/-- Go `dns.RcodeNameError`. -/
def RcodeNameError : Int := 3

/-- Go `dns.OpcodeQuery`. -/
def OpcodeQuery : Nat := 0

/-- Go `new(dns.Msg)`. -/
def Msg.new : Msg :=
  { Id := 0, Response := false, Opcode := 0, Authoritative := false,
    Truncated := false, RecursionDesired := false, RecursionAvailable := false,
    CheckingDisabled := false, Rcode := 0, Question := [], Answer := [] }

/-- Go `(*dns.Msg).SetReply` of the DNS library, applied to a new message. -/
def SetReply (dns request : Msg) : Msg :=
  let dns := { dns with Id := request.Id, Response := true, Opcode := request.Opcode }
  let dns := if dns.Opcode = OpcodeQuery then
      { dns with RecursionDesired := request.RecursionDesired,
                 CheckingDisabled := request.CheckingDisabled }
    else dns
  let dns := { dns with Rcode := 0 }
  match request.Question with
  | [] => dns
  | q :: _ => { dns with Question := [q] }

/-- The UTF-8 encoding of a rune, as bytes. -/
def utf8EncodeRune (c : Char) : List Nat :=
  if c.toNat < 128 then [c.toNat]
  else if c.toNat < 2048 then [192 + c.toNat / 64, 128 + c.toNat % 64]
  else if c.toNat < 65536 then
    [224 + c.toNat / 4096, 128 + c.toNat / 64 % 64, 128 + c.toNat % 64]
  else
    [240 + c.toNat / 262144, 128 + c.toNat / 4096 % 64, 128 + c.toNat / 64 % 64,
     128 + c.toNat % 64]

/-- The bytes of a Go string. -/
def utf8Bytes (s : GoString) : List Nat :=
  s.flatMap utf8EncodeRune

/-- `isDomainNameLabelSpecial` of the DNS library: the bytes
`.`, space, quote, `@`, `;`, `(`, `)`, double quote and backslash. -/
def isDomainNameLabelSpecial (b : Nat) : Bool :=
  b = 46 || b = 32 || b = 39 || b = 64 || b = 59 || b = 40 || b = 41 || b = 34 || b = 92

/-- `escapeByte` of the DNS library: a backslash and the three decimal digits
of the byte. -/
def escapeByte (b : Nat) : List Nat :=
  [92, 48 + b % 256 / 100, 48 + b % 256 / 10 % 10, 48 + b % 256 % 10]

/-- `isDigit` of the DNS library. -/
def isDigit (b : Nat) : Bool :=
  decide (48 ≤ b) && decide (b ≤ 57)

/-- What `sprintName` makes of `dst` for one decoded byte `b`, `consumed`
being `s[:i]`: an escape for a special or unprintable byte, copied behind the
unchanged start of the name when nothing was written yet; the byte itself
otherwise, and only when something was written before. -/
def sprintName.emit (consumed dst : List Nat) (b : Nat) : List Nat :=
  if isDomainNameLabelSpecial b then (if dst = [] then consumed else dst) ++ [92, b]
  else if b < 32 ∨ b > 126 then (if dst = [] then consumed else dst) ++ escapeByte b
  else if dst = [] then dst else dst ++ [b]

/-- The loop of `sprintName` of the DNS library over the bytes still to read:
`consumed` is `s[:i]` and `dst` the builder.  A dot is copied when something
was written before.  A backslash is read as `nextByte` does: with four bytes or
more left and three digits behind it, it stands for the byte of that decimal
value; with another byte behind it, for that byte; a lone final backslash is
dropped.  The cases are by the number of bytes left: four or more, two or
three, one. -/
def sprintName.loop : List Nat → List Nat → List Nat → List Nat
  | [], consumed, dst => if dst = [] then consumed else dst
  | b :: d1 :: d2 :: d3 :: t3, consumed, dst =>
    if b = 46 then
      sprintName.loop (d1 :: d2 :: d3 :: t3) (consumed ++ [b])
        (if dst = [] then dst else dst ++ [46])
    else if b ≠ 92 then
      sprintName.loop (d1 :: d2 :: d3 :: t3) (consumed ++ [b])
        (sprintName.emit consumed dst b)
    else if isDigit d1 ∧ isDigit d2 ∧ isDigit d3 then
      sprintName.loop t3 (consumed ++ [b, d1, d2, d3])
        (sprintName.emit consumed dst (((d1 - 48) * 100 + (d2 - 48) * 10 + (d3 - 48)) % 256))
    else
      sprintName.loop (d2 :: d3 :: t3) (consumed ++ [b, d1]) (sprintName.emit consumed dst d1)
  | b :: d1 :: t2, consumed, dst =>
    if b = 46 then
      sprintName.loop (d1 :: t2) (consumed ++ [b]) (if dst = [] then dst else dst ++ [46])
    else if b ≠ 92 then
      sprintName.loop (d1 :: t2) (consumed ++ [b]) (sprintName.emit consumed dst b)
    else
      sprintName.loop t2 (consumed ++ [b, d1]) (sprintName.emit consumed dst d1)
  | [b], consumed, dst =>
    if b = 46 then
      sprintName.loop [] (consumed ++ [b]) (if dst = [] then dst else dst ++ [46])
    else if b ≠ 92 then
      sprintName.loop [] (consumed ++ [b]) (sprintName.emit consumed dst b)
    else if dst = [] then consumed else dst
termination_by structural s => s

/-- `sprintName` of the DNS library, which is `dns.Name.String`: the name in
presentation format, its bytes outside the printable ASCII range escaped as
`\DDD` and its special bytes escaped with a backslash.  The result consists of
ASCII bytes, given here as runes. -/
def sprintName (s : GoString) : GoString :=
  (sprintName.loop (utf8Bytes s) [] []).map Char.ofNat

/-- `request.Request.QName` of the server framework:
`dns.Name(r.Req.Question[0].Name).String()`, the root when there is no
question. -/
def QName (r : Msg) : GoString :=
  match r.Question with
  | [] => ['.']
  | q :: _ => sprintName q.Name

/-- `request.Request.QClass` of the server framework. -/
def QClass (r : Msg) : Nat :=
  match r.Question with
  | [] => 0
  | q :: _ => q.Qclass

/-- Go conversion `uint32(ttl)` of an `int`. -/
def toUint32 (ttl : Int) : Nat :=
  (ttl % (2 : Int) ^ 32).toNat

/-! ## The plugin state and its effects -/

/-- Mirror of `Client`: the field read by the functions modelled here. -/
structure Client where
  instanceId : GoString
  deriving DecidableEq, Repr

/-- What the plugin does to the outside, in order.  Log lines are left out. -/
inductive Event where
  /-- a call of `GetRecords`, which reads the directory under the lock -/
  | getRecords
  /-- a call of `UpdateRecords` with the given slice -/
  | updateRecords (records : List PodRecord)
  /-- a call `w.WriteMsg(msg)` -/
  | writeMsg (msg : Msg)
  /-- a call of the next handler's `ServeDNS` with the given request -/
  | next (r : Msg)
  /-- a call `time.Sleep(seconds * time.Second)` -/
  | sleep (seconds : Int)
  deriving DecidableEq, Repr

/-- What a handler returns, `(int, error)`, and what it did. -/
structure Outcome where
  code : Int
  err : GoError
  events : List Event
  deriving DecidableEq, Repr

/-- A `plugin.Handler`: the `(int, error)` its `ServeDNS` returns for a
request. -/
abbrev Handler := Msg → Int × GoError

/-- Mirror of `Example`.  `Records` holds the records the Go slice points to;
`Next` is `none` for a nil handler. -/
structure Example where
  Next : Option Handler
  KubeClient : Client
  Records : List PodRecord

/-- `MakeCopy`, and the copy loop of `GetRecords`. -/
def MakeCopy (records : List PodRecord) : List PodRecord :=
  records.foldl (fun dest rc => dest ++ [rc]) []

/-- `Example.GetRecords`. -/
def GetRecords (e : Example) : List PodRecord :=
  MakeCopy e.Records

/-- `Example.UpdateRecords`. -/
def UpdateRecords (e : Example) (records : List PodRecord) : Example :=
  { e with Records := records }

/-! ## Query resolution -/

/-- The answer built at lines 199-203 for a matching record.  `parseIP` is
`net.ParseIP(·).To4()` of the Go standard library. -/
def answerFor (parseIP : GoString → Option IPv4) (ttl : Int) (r : Msg)
    (rc : PodRecord) : A :=
  { Hdr := { Name := QName r, Rrtype := TypeA, Class := QClass r, Ttl := toUint32 ttl },
    A := parseIP rc.Ip }

/-- The loop of `QueryForPodRecord` over the snapshot: an answer is appended
for each record whose `Name` equals `name`. -/
def matchAnswers (parseIP : GoString → Option IPv4) (ttl : Int) (r : Msg)
    (name : GoString) (records : List PodRecord) : List A :=
  records.foldl
    (fun answers rc => if rc.Name = name then answers ++ [answerFor parseIP ttl r rc] else answers)
    []

/-- The message `QueryForPodRecord` builds and writes. -/
def responseFor (parseIP : GoString → Option IPv4) (env : Environ) (e : Example)
    (name : GoString) (r : Msg) : Msg :=
  let ttl := (GetEnvConfig env "LOCAL_CLUSTER_DNS_RECORD_TTL".toList 30).1
  let msg := SetReply Msg.new r
  let msg := { msg with RecursionAvailable := true }
  let msg := { msg with Authoritative := true }
  let records := GetRecords e
  let answers := matchAnswers parseIP ttl r name records
  { msg with Answer := answers }

/-- `Example.QueryForPodRecord`; `state` is `request.Request` over `r`. -/
def QueryForPodRecord (parseIP : GoString → Option IPv4) (env : Environ) (e : Example)
    (name : GoString) (r : Msg) : Outcome :=
  { code := RcodeSuccess, err := none,
    events := [Event.getRecords, Event.writeMsg (responseFor parseIP env e name r)] }

/-- `plugin.NextOrFailure` of the server framework. -/
def NextOrFailure (name : String) (next : Option Handler) (r : Msg) : Outcome :=
  match next with
  | some h => { code := (h r).1, err := (h r).2, events := [Event.next r] }
  | none =>
    { code := RcodeServerFailure,
      err := some ("plugin/" ++ name ++ ": no next plugin found"), events := [] }

/-- The root domain tested by `ServeDNS_WhoAmI`. -/
def clusterLocal : GoString := "cluster.local.".toList

/-- Lines 229-233 of `ServeDNS_WhoAmI`: the `podName` computed from a query
name that has the suffix, `none` when a slice expression panics. -/
def candidateName (qname : GoString) : Option GoString :=
  let index := LastIndex qname clusterLocal
  match runesTo qname index with
  | none => none
  | some podName =>
    if HasSuffix podName ['.'] then runesTo podName ((len podName : Int) - 1)
    else some podName

/-- `Example.ServeDNS_WhoAmI`, which is `Example.ServeDNS`. -/
def ServeDNS_WhoAmI (parseIP : GoString → Option IPv4) (env : Environ) (e : Example)
    (r : Msg) : Option Outcome :=
  let qname := QName r
  if HasSuffix qname clusterLocal then
    match candidateName qname with
    | none => none
    | some podName => some (QueryForPodRecord parseIP env e podName r)
  else some (NextOrFailure "example" e.Next r)

/-! ## The kubelet client -/

/-- Mirror of `v1.PodList`. -/
structure PodList where
  Items : List Pod
  deriving DecidableEq, Repr

/-- A response body, `[]byte`. -/
abbrev Bytes := List Nat

/-- What `HttpGet` returns: an error, or the body and the status code. -/
abbrev HttpResult := Except String (Bytes × Int)

/-- Go `json.Unmarshal(data, &kubePods)` on the zero `v1.PodList`: the value
left in `kubePods` and the error returned. -/
abbrev Unmarshal := Bytes → PodList × GoError

/-- Go `strings.TrimSuffix`. -/
def TrimSuffix (s suffix : GoString) : GoString :=
  if HasSuffix s suffix then s.take (s.length - suffix.length) else s

/-- `Client.removeHostName`; the pods are updated in place in Go. -/
def Client.removeHostName (kc : Client) (pods : List Pod) : List Pod :=
  if len kc.instanceId > 0 then
    let suffix := '-' :: kc.instanceId
    pods.map (fun pod => { pod with Name := TrimSuffix pod.Name suffix })
  else pods

/-- `Client.GetPodsInfo`, given what `HttpGet` returned. -/
def Client.GetPodsInfo (kc : Client) (unmarshal : Unmarshal) (resp : HttpResult) :
    Except String (List Pod) :=
  match resp with
  | .error err => .error err
  | .ok (data, _) =>
    let kubePods := (unmarshal data).1
    .ok (kc.removeHostName kubePods.Items)

/-- `Client.GetRunningPods`, given what `HttpGet` returned. -/
def Client.GetRunningPods (_kc : Client) (unmarshal : Unmarshal) (resp : HttpResult) :
    Except String PodList :=
  match resp with
  | .error err => .error err
  | .ok (data, _) =>
    match (unmarshal data).2 with
    | some err => .error err
    | none => .ok (unmarshal data).1

/-! ## The synchronization loop -/

/-- One iteration of the loop of `BackgroundLoop`, given what `HttpGet`
returns in it: the plugin afterwards and the events, `none` when
`GetUserPodRecords` panics. -/
def BackgroundLoop.cycle (unmarshal : Unmarshal) (seconds : Int) (e : Example)
    (resp : HttpResult) : Option (Example × List Event) :=
  match e.KubeClient.GetPodsInfo unmarshal resp with
  | .error _ => some (e, [Event.sleep seconds])
  | .ok pods =>
    match GetUserPodRecords pods with
    | none => none
    | some records =>
      some (UpdateRecords e records, [Event.updateRecords records, Event.sleep seconds])

/-- The iterations of the loop for the given `HttpGet` results, one each. -/
def BackgroundLoop.run (unmarshal : Unmarshal) (seconds : Int) :
    Example → List HttpResult → Option (Example × List Event)
  | e, [] => some (e, [])
  | e, resp :: rest =>
    match BackgroundLoop.cycle unmarshal seconds e resp with
    | none => none
    | some (e1, ev1) =>
      match BackgroundLoop.run unmarshal seconds e1 rest with
      | none => none
      | some (e2, ev2) => some (e2, ev1 ++ ev2)

/-- `Example.BackgroundLoop`, run for as many iterations as there are
`HttpGet` results (the Go loop has no exit). -/
def BackgroundLoop (env : Environ) (unmarshal : Unmarshal) (e : Example)
    (resps : List HttpResult) : Option (Example × List Event) :=
  let seconds := (GetEnvConfig env "KUBELET_STATUS_SYNC_INTERVAL".toList 10).1
  BackgroundLoop.run unmarshal seconds e resps

/-! ## IPv4 literals -/

/-- The fields of a dotted literal: `splitDots s acc` cuts `s` at each `.`,
`acc` being the current field, reversed. -/
def splitDots : GoString → GoString → List GoString
  | [], acc => [acc.reverse]
  | c :: t, acc => if c = '.' then acc.reverse :: splitDots t [] else splitDots t (c :: acc)

/-- One field of an IPv4 literal: decimal digits without a leading zero, at
most 255. -/
def parseOctet (f : GoString) : Option Nat :=
  if f = [] ∨ ¬ f.all Char.isDigit then none
  else if f.head? == some '0' ∧ f.length > 1 then none
  else
    let v : Nat := f.foldl (fun n ch => n * 10 + (ch.toNat - 48)) 0
    if v ≤ 255 then some v else none

/-- The dotted-decimal form of Go `net.ParseIP(s).To4()`: four fields.  Used
where a concrete parser is needed; the IPv6 forms Go also reads are not
covered. -/
def parseIPv4 (s : GoString) : Option IPv4 :=
  match (splitDots s []).map parseOctet with
  | [some a, some b, some c, some d] => some [a, b, c, d]
  | _ => none

/-- The string is a syntactically valid dotted-decimal IPv4 literal. -/
def isIPv4Literal (s : GoString) : Bool :=
  (parseIPv4 s).isSome

/-! ## The directory at the level of pointers

`Records` is a `[]*PodRecord`.  The definitions above take a slice as the
list of the records it points to; the ones below keep the backing arrays and
the record cells apart, to tell a copy of the slice from a copy of the
records. -/

/-- A `*PodRecord`: the address of a record cell. -/
abbrev Ptr := Nat

/-- A slice value `[]*PodRecord`: the address of its backing array and its
length (every slice here starts at offset zero). -/
structure Slice where
  array : Nat
  len : Nat
  deriving DecidableEq, Repr

/-- The heap as far as the directory goes: the record cells and the backing
arrays, by address, and the field `e.Records`. -/
structure Store where
  cells : List PodRecord
  arrays : List (List Ptr)
  Records : Slice
  deriving DecidableEq, Repr

/-- The pointers a slice holds. -/
def Store.elems (st : Store) (s : Slice) : List Ptr :=
  (st.arrays[s.array]?.getD []).take s.len

/-- The records a slice points to. -/
def Store.deref (st : Store) (s : Slice) : List PodRecord :=
  (st.elems s).filterMap (fun rc => st.cells[rc]?)

/-- `Example.GetRecords` on the heap: `dest` is a new backing array, made
with `make`, to which the pointers of `e.Records` are appended one by one; the
returned slice is over that array. -/
def Store.GetRecords (st : Store) : Store × Slice :=
  let dest := (st.elems st.Records).foldl (fun dest rc => dest ++ [rc]) []
  ({ st with arrays := st.arrays ++ [dest] }, { array := st.arrays.length, len := dest.length })

/-- `Example.UpdateRecords` on the heap: the slice value is stored. -/
def Store.UpdateRecords (st : Store) (records : Slice) : Store :=
  { st with Records := records }

/-- A caller's assignment `s[i] = rc` to an element of a slice; `none` is the
index-out-of-range panic. -/
def Store.setElem (st : Store) (s : Slice) (i : Nat) (rc : Ptr) : Option Store :=
  if i < s.len then
    some { st with arrays := st.arrays.set s.array ((st.arrays[s.array]?.getD []).set i rc) }
  else none

/-- A caller's assignment `*rc = v` (or to a field of `*rc`) through a
pointer. -/
def Store.setCell (st : Store) (rc : Ptr) (v : PodRecord) : Store :=
  { st with cells := st.cells.set rc v }

/-- A store whose directory holds one record, `foo`. -/
def storeFoo : Store :=
  { cells := [{ Name := "foo".toList, Ip := "10.0.0.1".toList, Port := 80 }],
    arrays := [[0]], Records := { array := 0, len := 1 } }

/-! ## Specification-side definitions and concrete data -/

/-- Spec wording: the name with its trailing `.` removed, when it has one. -/
def dropTrailingDot (s : GoString) : GoString :=
  if s.getLast? = some '.' then s.dropLast else s

/-- A pod labelled `userPod="true"` with one container declaring one port. -/
def userPod (name ip : String) (port : Int) : Pod :=
  { Name := name.toList, Labels := [("userPod".toList, "true".toList)],
    Spec := { Containers := [{ Ports := [{ ContainerPort := port }] }] },
    Status := { PodIP := ip.toList } }

/-- A pod without the label, otherwise like `userPod`. -/
def systemPod (name ip : String) (port : Int) : Pod :=
  { userPod name ip port with Labels := [("tier".toList, "control-plane".toList)] }

/-- A query message with one question of class `IN`, type `A`. -/
def query (qname : String) : Msg :=
  { Msg.new with Id := 7, RecursionDesired := true,
                 Question := [{ Name := qname.toList, Qtype := 1, Qclass := 1 }] }

/-- A plugin whose directory holds the given records. -/
def pluginWith (next : Option Handler) (records : List PodRecord) : Example :=
  { Next := next, KubeClient := { instanceId := [] }, Records := records }

/-- Two records named `foo` and one named `bar`. -/
def dirTwoFoo : List PodRecord :=
  [{ Name := "foo".toList, Ip := "10.0.0.1".toList, Port := 80 },
   { Name := "bar".toList, Ip := "10.0.0.3".toList, Port := 80 },
   { Name := "foo".toList, Ip := "10.0.0.2".toList, Port := 80 }]

/-- A next handler that refuses every request. -/
def refusing : Handler := fun _ => (5, some "refused")

/-- A decoder that rejects every body and leaves the pod list at its zero
value, as `json.Unmarshal` does on a body that is not JSON. -/
def rejectingUnmarshal : Unmarshal :=
  fun _ => ({ Items := [] }, some "invalid character looking for beginning of value")

/-- A decoder that reads the given pods from every body. -/
def decodingTo (pods : List Pod) : Unmarshal :=
  fun _ => ({ Items := pods }, none)

/-- The bytes of the body `<html>`. -/
def htmlBody : Bytes := [60, 104, 116, 109, 108, 62]

/-! ## Lemmas on the string operations -/

theorem utf8Size_of_lt {c : Char} (h : c.toNat < 128) : c.utf8Size = 1 := by
  have h1 : c.val.toNat < 128 := h
  have h2 : c.val ≤ 127 := by
    rw [UInt32.le_def]
    show c.val.val.val ≤ 127
    have : c.val.toNat = c.val.val.val := rfl
    omega
  have h3 : c.val ≤ UInt32.ofNatCore 127 (by decide) := h2
  simp only [Char.utf8Size]
  exact if_pos h3

theorem len_of_isASCII {s : GoString} (h : isASCII s = true) : len s = s.length := by
  induction s with
  | nil => rfl
  | cons c t ih =>
    simp only [isASCII, List.all_cons, Bool.and_eq_true, decide_eq_true_eq] at h
    have ht : isASCII t = true := h.2
    simp [len, utf8Size_of_lt h.1, ih ht]
    omega

theorem isASCII_append (s t : GoString) :
    isASCII (s ++ t) = (isASCII s && isASCII t) := by
  simp [isASCII, List.all_append]

theorem LastIndex_append (pre s substr : GoString) (h : 0 ≤ LastIndex s substr) :
    LastIndex (pre ++ s) substr = (len pre : Int) + LastIndex s substr := by
  induction pre with
  | nil => simp [len]
  | cons c t ih =>
    have h0 : 0 ≤ LastIndex (t ++ s) substr := by rw [ih]; omega
    show LastIndex (c :: (t ++ s)) substr = _
    rw [LastIndex]
    simp only [if_pos h0, ih, len]
    push_cast
    omega

theorem LastIndex_of_not_mem (c : Char) (s : GoString) (h : c ∉ s) :
    LastIndex s [c] = -1 := by
  induction s with
  | nil => simp [LastIndex]
  | cons d t ih =>
    have hd : c ≠ d := fun hcd => h (by simp [hcd])
    have ht : c ∉ t := fun hm => h (List.mem_cons_of_mem _ hm)
    simp [LastIndex, ih ht, List.isPrefixOf, hd]

theorem LastIndex_sep_cons (c : Char) (post : GoString) (h : c ∉ post) :
    LastIndex (c :: post) [c] = 0 := by
  simp [LastIndex, LastIndex_of_not_mem c post h, List.isPrefixOf]

/-! ## Lemmas on the capacity of a rune slice -/

theorem le_roundupsize (size : Nat) : size ≤ roundupsize size := by
  unfold roundupsize
  split
  · rename_i c hc
    have := List.find?_some hc
    simpa using this
  · omega

theorem le_runeCap (n : Nat) : n ≤ runeCap n := by
  unfold runeCap
  split
  · assumption
  · have := le_roundupsize (4 * n)
    omega

theorem runesTo_of_le (s : GoString) (n : Int) (h0 : 0 ≤ n) (hn : n ≤ (s.length : Int)) :
    runesTo s n = some (s.take n.toNat) := by
  have hcap := le_runeCap s.length
  have h1 : 0 ≤ n ∧ n ≤ (runeCap s.length : Int) := ⟨h0, by omega⟩
  simp only [runesTo, h1, and_self, if_true]
  rw [List.take_append_of_le_length (by omega)]

theorem runesTo_append (pre rest : GoString) :
    runesTo (pre ++ rest) (pre.length : Int) = some pre := by
  rw [runesTo_of_le _ _ (by omega) (by simp)]
  simp

theorem HasSuffix_append (pre suffix : GoString) :
    HasSuffix (pre ++ suffix) suffix = true := by
  simp only [HasSuffix]
  exact List.isSuffixOf_iff_suffix.mpr (List.suffix_append pre suffix)

theorem HasSuffix_dot_iff (s : GoString) :
    HasSuffix s ['.'] = true ↔ s.getLast? = some '.' := by
  simp only [HasSuffix]
  rw [List.isSuffixOf_iff_suffix, List.getLast?_eq_some_iff]
  constructor
  · rintro ⟨t, ht⟩
    exact ⟨t, ht.symm⟩
  · rintro ⟨t, ht⟩
    exact ⟨t, ht.symm⟩

theorem LastIndex_clusterLocal : LastIndex clusterLocal clusterLocal = 0 := by decide

/-! ## Lemmas on `GetUserPodRecords` -/

theorem recordName_cut (pre post : GoString) (hpost : '-' ∉ post) (hne : pre ≠ [])
    (hascii : isASCII pre = true) : recordName (pre ++ '-' :: post) = some pre := by
  have hidx : LastIndex (pre ++ '-' :: post) ['-'] = (pre.length : Int) := by
    rw [LastIndex_append _ _ _ (by rw [LastIndex_sep_cons _ _ hpost]),
      LastIndex_sep_cons _ _ hpost, len_of_isASCII hascii]
    simp
  have hpos : (0 : Int) < (pre.length : Int) := by
    have := List.length_pos.mpr hne
    omega
  simp only [recordName, hidx]
  rw [if_pos hpos, runesTo_append]

theorem recordName_keep (post : GoString) (hpost : '-' ∉ post) :
    recordName ('-' :: post) = some ('-' :: post) := by
  simp [recordName, LastIndex_sep_cons _ _ hpost]

theorem GetUserPodRecords.loop_acc (pods : List Pod) (acc : List PodRecord) :
    GetUserPodRecords.loop pods acc = (GetUserPodRecords.loop pods []).map (acc ++ ·) := by
  induction pods generalizing acc with
  | nil => simp [GetUserPodRecords.loop]
  | cons p ps ih =>
    simp only [GetUserPodRecords.loop]
    split
    · cases hrc : userPodRecord p with
      | none => simp
      | some rc =>
        simp only []
        rw [ih (acc ++ [rc]), ih ([] ++ [rc])]
        cases GetUserPodRecords.loop ps [] <;> simp
    · exact ih acc

theorem GetUserPodRecords_cons (p : Pod) (ps : List Pod) :
    GetUserPodRecords (p :: ps) =
      if p.isUserPod then
        match userPodRecord p with
        | none => none
        | some rc => (GetUserPodRecords ps).map (rc :: ·)
      else GetUserPodRecords ps := by
  simp only [GetUserPodRecords, GetUserPodRecords.loop]
  split
  · cases hrc : userPodRecord p with
    | none => rfl
    | some rc =>
      simp only []
      rw [GetUserPodRecords.loop_acc]
      cases GetUserPodRecords.loop ps [] <;> simp
  · rfl

theorem GetUserPodRecords_append (xs ys : List Pod) :
    GetUserPodRecords (xs ++ ys) =
      match GetUserPodRecords xs with
      | none => none
      | some a => (GetUserPodRecords ys).map (a ++ ·) := by
  induction xs with
  | nil =>
    have : GetUserPodRecords [] = some [] := rfl
    simp [this]
  | cons p ps ih =>
    rw [List.cons_append, GetUserPodRecords_cons, GetUserPodRecords_cons, ih]
    by_cases hp : p.isUserPod = true
    · simp only [hp, if_true]
      cases userPodRecord p with
      | none => rfl
      | some rc =>
        cases GetUserPodRecords ps with
        | none => rfl
        | some a => cases GetUserPodRecords ys <;> simp
    · simp only [hp, if_false, Bool.false_eq_true]

/-- A labelled pod between two runs that complete: its record sits between
theirs. -/
theorem GetUserPodRecords_insert (before after : List Pod) (pod : Pod) (rc : PodRecord)
    (rb ra : List PodRecord) (hlabel : pod.isUserPod = true)
    (hrc : userPodRecord pod = some rc)
    (hb : GetUserPodRecords before = some rb) (ha : GetUserPodRecords after = some ra) :
    GetUserPodRecords (before ++ pod :: after) = some (rb ++ rc :: ra) := by
  rw [GetUserPodRecords_append, hb, GetUserPodRecords_cons, if_pos hlabel, hrc, ha]
  rfl

/-! ## Lemmas on `sprintName`: the query name is ASCII -/

theorem isDomainNameLabelSpecial_lt {b : Nat} (h : isDomainNameLabelSpecial b = true) :
    b < 128 := by
  simp only [isDomainNameLabelSpecial, Bool.or_eq_true, decide_eq_true_eq] at h
  omega

theorem isDigit_lt {b : Nat} (h : isDigit b = true) : b < 128 := by
  simp only [isDigit, Bool.and_eq_true, decide_eq_true_eq] at h
  omega

theorem escapeByte_lt (b x : Nat) (h : x ∈ escapeByte b) : x < 128 := by
  simp only [escapeByte, List.mem_cons, List.mem_singleton, List.not_mem_nil, or_false] at h
  omega

theorem sprintName.emit_lt (consumed dst : List Nat) (b : Nat)
    (hd : ∀ x ∈ dst, x < 128) (hc : dst = [] → ∀ x ∈ consumed, x < 128) :
    ∀ x ∈ sprintName.emit consumed dst b, x < 128 := by
  intro x hx
  unfold sprintName.emit at hx
  have hstart : ∀ y ∈ (if dst = [] then consumed else dst), y < 128 := by
    intro y hy
    by_cases hn : dst = []
    · rw [if_pos hn] at hy
      exact hc hn y hy
    · rw [if_neg hn] at hy
      exact hd y hy
  split at hx
  · rename_i hs
    rw [List.mem_append] at hx
    rcases hx with hx | hx
    · exact hstart x hx
    · simp only [List.mem_cons, List.mem_singleton, List.not_mem_nil, or_false] at hx
      have := isDomainNameLabelSpecial_lt hs
      omega
  · split at hx
    · rw [List.mem_append] at hx
      rcases hx with hx | hx
      · exact hstart x hx
      · exact escapeByte_lt b x hx
    · rename_i hp
      split at hx
      · exact hd x hx
      · rw [List.mem_append] at hx
        rcases hx with hx | hx
        · exact hd x hx
        · simp only [List.mem_singleton] at hx
          omega

theorem sprintName.emit_eq_nil (consumed dst : List Nat) (b : Nat)
    (h : sprintName.emit consumed dst b = []) : dst = [] ∧ b < 128 := by
  unfold sprintName.emit at h
  split at h
  · simp at h
  · split at h
    · simp [escapeByte] at h
    · rename_i hp
      split at h
      · rename_i hn
        exact ⟨hn, by omega⟩
      · simp at h

theorem sprintName.finish_lt (consumed dst : List Nat)
    (hd : ∀ x ∈ dst, x < 128) (hc : dst = [] → ∀ x ∈ consumed, x < 128) :
    ∀ x ∈ (if dst = [] then consumed else dst), x < 128 := by
  intro x hx
  by_cases hn : dst = []
  · rw [if_pos hn] at hx
    exact hc hn x hx
  · rw [if_neg hn] at hx
    exact hd x hx

theorem sprintName.dot_inv (consumed dst : List Nat)
    (hd : ∀ x ∈ dst, x < 128) (hc : dst = [] → ∀ x ∈ consumed, x < 128) :
    (∀ x ∈ (if dst = [] then dst else dst ++ [46]), x < 128) ∧
    ((if dst = [] then dst else dst ++ [46]) = [] → ∀ x ∈ consumed ++ [46], x < 128) := by
  by_cases hn : dst = []
  · simp only [if_pos hn]
    refine ⟨hd, fun _ x hx => ?_⟩
    rw [List.mem_append] at hx
    rcases hx with hx | hx
    · exact hc hn x hx
    · simp only [List.mem_singleton] at hx
      omega
  · simp only [if_neg hn]
    refine ⟨fun x hx => ?_, fun h => ?_⟩
    · rw [List.mem_append] at hx
      rcases hx with hx | hx
      · exact hd x hx
      · simp only [List.mem_singleton] at hx
        omega
    · simp at h

theorem sprintName.emit_inv (consumed dst raw : List Nat) (b : Nat)
    (hd : ∀ x ∈ dst, x < 128) (hc : dst = [] → ∀ x ∈ consumed, x < 128)
    (hraw : b < 128 → ∀ x ∈ raw, x < 128) :
    (∀ x ∈ sprintName.emit consumed dst b, x < 128) ∧
    (sprintName.emit consumed dst b = [] → ∀ x ∈ consumed ++ raw, x < 128) := by
  refine ⟨sprintName.emit_lt consumed dst b hd hc, fun h x hx => ?_⟩
  obtain ⟨hn, hb⟩ := sprintName.emit_eq_nil consumed dst b h
  rw [List.mem_append] at hx
  rcases hx with hx | hx
  · exact hc hn x hx
  · exact hraw hb x hx

theorem sprintName.loop_one (b : Nat) (consumed dst : List Nat) :
    sprintName.loop [b] consumed dst =
      if b = 46 then
        sprintName.loop [] (consumed ++ [b]) (if dst = [] then dst else dst ++ [46])
      else if b ≠ 92 then
        sprintName.loop [] (consumed ++ [b]) (sprintName.emit consumed dst b)
      else if dst = [] then consumed else dst := rfl

theorem sprintName.loop_two (b d1 : Nat) (consumed dst : List Nat) :
    sprintName.loop [b, d1] consumed dst =
      if b = 46 then
        sprintName.loop [d1] (consumed ++ [b]) (if dst = [] then dst else dst ++ [46])
      else if b ≠ 92 then
        sprintName.loop [d1] (consumed ++ [b]) (sprintName.emit consumed dst b)
      else
        sprintName.loop [] (consumed ++ [b, d1]) (sprintName.emit consumed dst d1) := rfl

theorem sprintName.loop_three (b d1 d2 : Nat) (consumed dst : List Nat) :
    sprintName.loop [b, d1, d2] consumed dst =
      if b = 46 then
        sprintName.loop [d1, d2] (consumed ++ [b]) (if dst = [] then dst else dst ++ [46])
      else if b ≠ 92 then
        sprintName.loop [d1, d2] (consumed ++ [b]) (sprintName.emit consumed dst b)
      else
        sprintName.loop [d2] (consumed ++ [b, d1]) (sprintName.emit consumed dst d1) := rfl

theorem sprintName.loop_four (b d1 d2 d3 : Nat) (t3 consumed dst : List Nat) :
    sprintName.loop (b :: d1 :: d2 :: d3 :: t3) consumed dst =
      if b = 46 then
        sprintName.loop (d1 :: d2 :: d3 :: t3) (consumed ++ [b])
          (if dst = [] then dst else dst ++ [46])
      else if b ≠ 92 then
        sprintName.loop (d1 :: d2 :: d3 :: t3) (consumed ++ [b])
          (sprintName.emit consumed dst b)
      else if isDigit d1 ∧ isDigit d2 ∧ isDigit d3 then
        sprintName.loop t3 (consumed ++ [b, d1, d2, d3])
          (sprintName.emit consumed dst
            (((d1 - 48) * 100 + (d2 - 48) * 10 + (d3 - 48)) % 256))
      else
        sprintName.loop (d2 :: d3 :: t3) (consumed ++ [b, d1])
          (sprintName.emit consumed dst d1) := rfl

theorem sprintName.loop_lt (n : Nat) :
    ∀ (s consumed dst : List Nat), s.length ≤ n →
      (∀ x ∈ dst, x < 128) → (dst = [] → ∀ x ∈ consumed, x < 128) →
      ∀ x ∈ sprintName.loop s consumed dst, x < 128 := by
  induction n using Nat.strong_induction_on with
  | _ n ih =>
    intro s consumed dst hlen hd hc
    have hrec : ∀ (s1 c1 d1 : List Nat), s1.length < s.length →
        (∀ x ∈ d1, x < 128) → (d1 = [] → ∀ x ∈ c1, x < 128) →
        ∀ x ∈ sprintName.loop s1 c1 d1, x < 128 := by
      intro s1 c1 d1 hl h1 h2
      exact ih s1.length (by omega) s1 c1 d1 (le_refl _) h1 h2
    have hplain : ∀ b : Nat, b < 128 → ∀ x ∈ [b], x < 128 := by
      intro b hb x hx
      simp only [List.mem_singleton] at hx
      omega
    match s, hrec with
    | [], _ =>
      simp only [sprintName.loop]
      exact sprintName.finish_lt consumed dst hd hc
    | [b], hrec =>
      rw [sprintName.loop_one]
      split
      · obtain ⟨h1, h2⟩ := sprintName.dot_inv consumed dst hd hc
        rename_i hb
        rw [hb]
        exact sprintName.finish_lt _ _ h1 h2
      · split
        · obtain ⟨h1, h2⟩ := sprintName.emit_inv consumed dst [b] b hd hc (hplain b)
          exact sprintName.finish_lt _ _ h1 h2
        · exact sprintName.finish_lt consumed dst hd hc
    | [b, d1], hrec =>
      rw [sprintName.loop_two]
      split
      · obtain ⟨h1, h2⟩ := sprintName.dot_inv consumed dst hd hc
        rename_i hb
        rw [hb]
        refine hrec _ _ _ ?_ h1 h2
        simp only [List.length]
        omega
      · split
        · obtain ⟨h1, h2⟩ := sprintName.emit_inv consumed dst [b] b hd hc (hplain b)
          refine hrec _ _ _ ?_ h1 h2
          simp only [List.length]
          omega
        · rename_i h46 h92
          have hb : b = 92 := by omega
          obtain ⟨h1, h2⟩ := sprintName.emit_inv consumed dst [b, d1] d1 hd hc
            (fun hlt x hx => by
              simp only [List.mem_cons, List.mem_singleton, List.not_mem_nil, or_false] at hx
              omega)
          refine hrec _ _ _ ?_ h1 h2
          simp only [List.length]
          omega
    | [b, d1, d2], hrec =>
      rw [sprintName.loop_three]
      split
      · obtain ⟨h1, h2⟩ := sprintName.dot_inv consumed dst hd hc
        rename_i hb
        rw [hb]
        refine hrec _ _ _ ?_ h1 h2
        simp only [List.length]
        omega
      · split
        · obtain ⟨h1, h2⟩ := sprintName.emit_inv consumed dst [b] b hd hc (hplain b)
          refine hrec _ _ _ ?_ h1 h2
          simp only [List.length]
          omega
        · rename_i h46 h92
          have hb : b = 92 := by omega
          obtain ⟨h1, h2⟩ := sprintName.emit_inv consumed dst [b, d1] d1 hd hc
            (fun hlt x hx => by
              simp only [List.mem_cons, List.mem_singleton, List.not_mem_nil, or_false] at hx
              omega)
          refine hrec _ _ _ ?_ h1 h2
          simp only [List.length]
          omega
    | b :: d1 :: d2 :: d3 :: t3, hrec =>
      rw [sprintName.loop_four]
      split
      · obtain ⟨h1, h2⟩ := sprintName.dot_inv consumed dst hd hc
        rename_i hb
        rw [hb]
        refine hrec _ _ _ ?_ h1 h2
        simp only [List.length]
        omega
      · split
        · obtain ⟨h1, h2⟩ := sprintName.emit_inv consumed dst [b] b hd hc (hplain b)
          refine hrec _ _ _ ?_ h1 h2
          simp only [List.length]
          omega
        · rename_i h46 h92
          have hb : b = 92 := by omega
          split
          · rename_i hdig
            obtain ⟨h1, h2⟩ := sprintName.emit_inv consumed dst [b, d1, d2, d3]
              (((d1 - 48) * 100 + (d2 - 48) * 10 + (d3 - 48)) % 256) hd hc
              (fun _ x hx => by
                simp only [List.mem_cons, List.mem_singleton, List.not_mem_nil, or_false] at hx
                have := isDigit_lt hdig.1
                have := isDigit_lt hdig.2.1
                have := isDigit_lt hdig.2.2
                omega)
            refine hrec _ _ _ ?_ h1 h2
            simp only [List.length]
            omega
          · obtain ⟨h1, h2⟩ := sprintName.emit_inv consumed dst [b, d1] d1 hd hc
              (fun hlt x hx => by
                simp only [List.mem_cons, List.mem_singleton, List.not_mem_nil, or_false] at hx
                omega)
            refine hrec _ _ _ ?_ h1 h2
            simp only [List.length]
            omega

theorem toNat_ofNat_of_lt {b : Nat} (h : b < 128) : (Char.ofNat b).toNat = b := by
  have hv : b.isValidChar := Or.inl (by omega)
  simp only [Char.ofNat, hv, dite_true]
  rfl

theorem isASCII_sprintName (s : GoString) : isASCII (sprintName s) = true := by
  simp only [isASCII, sprintName, List.all_eq_true, List.mem_map, decide_eq_true_eq]
  rintro c ⟨b, hb, rfl⟩
  have hlt : b < 128 :=
    sprintName.loop_lt _ (utf8Bytes s) [] [] (le_refl _) (by simp) (by simp) b hb
  rw [toNat_ofNat_of_lt hlt]
  exact hlt

theorem isASCII_QName (r : Msg) : isASCII (QName r) = true := by
  unfold QName
  split
  · decide
  · exact isASCII_sprintName _

/-! ## Lemmas on the query path -/

theorem candidateName_of_isASCII (pre : GoString) (hascii : isASCII pre = true) :
    candidateName (pre ++ clusterLocal) = some (dropTrailingDot pre) := by
  have hidx : LastIndex (pre ++ clusterLocal) clusterLocal = (pre.length : Int) := by
    rw [LastIndex_append _ _ _ (by rw [LastIndex_clusterLocal]), LastIndex_clusterLocal,
      len_of_isASCII hascii]
    simp
  simp only [candidateName, hidx, runesTo_append, dropTrailingDot]
  by_cases hdot : pre.getLast? = some '.'
  · rw [if_pos ((HasSuffix_dot_iff pre).mpr hdot), if_pos hdot, len_of_isASCII hascii]
    obtain ⟨t, rfl⟩ := List.getLast?_eq_some_iff.mp hdot
    have h1 : ((t ++ ['.']).length : Int) - 1 = (t.length : Int) := by simp
    rw [h1, runesTo_append, List.dropLast_concat]
  · have hs : ¬ HasSuffix pre ['.'] = true := fun h => hdot ((HasSuffix_dot_iff pre).mp h)
    rw [if_neg hs, if_neg hdot]

theorem MakeCopy_eq (records : List PodRecord) : MakeCopy records = records := by
  have h : ∀ (l acc : List PodRecord),
      l.foldl (fun dest rc => dest ++ [rc]) acc = acc ++ l := by
    intro l
    induction l with
    | nil => simp
    | cons a t ih => intro acc; simp [ih]
  simpa [MakeCopy] using h records []

theorem matchAnswers_eq (parseIP : GoString → Option IPv4) (ttl : Int) (r : Msg)
    (name : GoString) (records : List PodRecord) :
    matchAnswers parseIP ttl r name records =
      (records.filter (fun rc => decide (rc.Name = name))).map (answerFor parseIP ttl r) := by
  have h : ∀ (l : List PodRecord) (acc : List A),
      l.foldl (fun answers rc =>
          if rc.Name = name then answers ++ [answerFor parseIP ttl r rc] else answers) acc =
        acc ++ (l.filter (fun rc => decide (rc.Name = name))).map (answerFor parseIP ttl r) := by
    intro l
    induction l with
    | nil => simp
    | cons a t ih =>
      intro acc
      by_cases ha : a.Name = name
      · simp [List.foldl_cons, ih, ha, List.filter_cons]
      · simp [List.foldl_cons, ih, ha, List.filter_cons]
  simpa [matchAnswers] using h records []

theorem responseFor_Answer (parseIP : GoString → Option IPv4) (env : Environ) (e : Example)
    (name : GoString) (r : Msg) :
    (responseFor parseIP env e name r).Answer =
      (e.Records.filter (fun rc => decide (rc.Name = name))).map
        (answerFor parseIP (GetEnvConfig env "LOCAL_CLUSTER_DNS_RECORD_TTL".toList 30).1 r) := by
  simp only [responseFor, GetRecords, MakeCopy_eq, matchAnswers_eq]

theorem head?_filter_eq_find? {α : Type} (p : α → Bool) (l : List α) :
    (l.filter p).head? = l.find? p := by
  induction l with
  | nil => rfl
  | cons a t ih =>
    by_cases ha : p a = true
    · simp [List.filter_cons, List.find?_cons, ha]
    · simp [List.filter_cons, List.find?_cons, ha, ih]

/-! ## Lemmas on the loop -/

theorem BackgroundLoop.run_append (unmarshal : Unmarshal) (seconds : Int) (e : Example)
    (xs ys : List HttpResult) :
    BackgroundLoop.run unmarshal seconds e (xs ++ ys) =
      match BackgroundLoop.run unmarshal seconds e xs with
      | none => none
      | some (e1, ev1) =>
        (BackgroundLoop.run unmarshal seconds e1 ys).map (fun out => (out.1, ev1 ++ out.2)) := by
  induction xs generalizing e with
  | nil =>
    simp only [List.nil_append, BackgroundLoop.run]
    cases BackgroundLoop.run unmarshal seconds e ys with
    | none => rfl
    | some out => rfl
  | cons x xs ih =>
    simp only [List.cons_append, BackgroundLoop.run]
    cases BackgroundLoop.cycle unmarshal seconds e x with
    | none => rfl
    | some out1 =>
      obtain ⟨e1, ev1⟩ := out1
      have ih1 : BackgroundLoop.run unmarshal seconds e1 (xs.append ys) = _ := ih e1
      simp only []
      rw [ih1]
      cases BackgroundLoop.run unmarshal seconds e1 xs with
      | none => rfl
      | some out2 =>
        obtain ⟨e2, ev2⟩ := out2
        simp only []
        cases BackgroundLoop.run unmarshal seconds e2 ys with
        | none => rfl
        | some out3 => simp [List.append_assoc]

/-! ## C1: the record name of a labelled pod whose name contains `-` -/

/-- C1 (as amended): for a pod labelled `userPod="true"` whose name is
`pre ++ "-" ++ post` with no `-` in `post`, and whose first container declares a
port, placed between pods for which `GetUserPodRecords` completes: when `pre`
is non-empty and ASCII the record built for the pod has `Name = pre`, the
substring before the last `-`; when `pre` is empty (the last `-` is the first
character) the record keeps the pod name unchanged. -/
theorem GetUserPodRecords_name_before_last_dash
    (before after : List Pod) (pod : Pod) (pre post : GoString)
    (c : Container) (cs : List Container) (port : ContainerPort) (ps : List ContainerPort)
    (rb ra : List PodRecord)
    (hlabel : pod.isUserPod = true)
    (hname : pod.Name = pre ++ '-' :: post) (hpost : '-' ∉ post)
    (hc : pod.Spec.Containers = c :: cs) (hp : c.Ports = port :: ps)
    (hb : GetUserPodRecords before = some rb) (ha : GetUserPodRecords after = some ra) :
    (pre ≠ [] → isASCII pre = true →
      GetUserPodRecords (before ++ pod :: after) =
        some (rb ++ { Name := pre, Ip := pod.Status.PodIP, Port := port.ContainerPort } :: ra)) ∧
    (pre = [] →
      GetUserPodRecords (before ++ pod :: after) =
        some (rb ++ { Name := pod.Name, Ip := pod.Status.PodIP,
                      Port := port.ContainerPort } :: ra)) := by
  constructor
  · intro hne hascii
    apply GetUserPodRecords_insert _ _ _ _ _ _ hlabel _ hb ha
    simp only [userPodRecord, hname, recordName_cut pre post hpost hne hascii, hc, hp]
  · intro hnil
    subst hnil
    apply GetUserPodRecords_insert _ _ _ _ _ _ hlabel _ hb ha
    have hn : pod.Name = '-' :: post := by simpa using hname
    simp only [userPodRecord, hn, recordName_keep post hpost, hc, hp]

/-- C1, witness: `resnet50-abc123` after an unlabelled pod gives the record
named `resnet50`. -/
theorem GetUserPodRecords_name_before_last_dash_witness :
    GetUserPodRecords
        ([systemPod "kube-proxy-x7" "10.0.0.2" 10249]
          ++ userPod "resnet50-abc123" "10.0.0.5" 8080 :: []) =
      some ([] ++ { Name := "resnet50".toList, Ip := "10.0.0.5".toList, Port := 8080 } :: []) :=
  (GetUserPodRecords_name_before_last_dash
      [systemPod "kube-proxy-x7" "10.0.0.2" 10249] [] (userPod "resnet50-abc123" "10.0.0.5" 8080)
      "resnet50".toList "abc123".toList { Ports := [{ ContainerPort := 8080 }] } []
      { ContainerPort := 8080 } [] [] []
      (by decide) (by decide) (by decide) rfl rfl (by decide) (by decide)).1
    (by decide) (by decide)

/-- C1, counterexample: the labelled pod `-abc` contains a `-`, the substring
before its last `-` is empty, and the record built for it is named `-abc`;
the labelled pod `é-x` has `é` before its last `-`, and the record built for it
is named `é-` (the byte offset 2 of the `-` is used as a rune count). -/
theorem GetUserPodRecords_name_counterexample :
    ((userPod "-abc" "10.0.0.5" 8080).isUserPod = true ∧
      (userPod "-abc" "10.0.0.5" 8080).Name = [] ++ '-' :: "abc".toList ∧
      '-' ∉ "abc".toList ∧
      GetUserPodRecords [userPod "-abc" "10.0.0.5" 8080] =
        some [{ Name := "-abc".toList, Ip := "10.0.0.5".toList, Port := 8080 }] ∧
      "-abc".toList ≠ ([] : GoString)) ∧
    ((userPod "é-x" "10.0.0.5" 8080).isUserPod = true ∧
      (userPod "é-x" "10.0.0.5" 8080).Name = "é".toList ++ '-' :: "x".toList ∧
      '-' ∉ "x".toList ∧
      GetUserPodRecords [userPod "é-x" "10.0.0.5" 8080] =
        some [{ Name := "é-".toList, Ip := "10.0.0.5".toList, Port := 8080 }] ∧
      "é-".toList ≠ "é".toList) := by
  decide

/-! ## C2: the candidate name of an in-scope query -/

/-- C2: for every query name that ends in `cluster.local.`, the name
`ServeDNS_WhoAmI` passes to `QueryForPodRecord` is the query name with that
suffix removed and its trailing `.` removed when one is left.  The query name
is `state.QName()`, the question name in the presentation format of the DNS
library, which is ASCII, so byte offsets and rune offsets agree on it. -/
theorem ServeDNS_WhoAmI_candidate_name
    (parseIP : GoString → Option IPv4) (env : Environ) (e : Example) (r : Msg)
    (pre : GoString)
    (hq : QName r = pre ++ clusterLocal) :
    candidateName (QName r) = some (dropTrailingDot pre) ∧
    ServeDNS_WhoAmI parseIP env e r =
      some (QueryForPodRecord parseIP env e (dropTrailingDot pre) r) := by
  have hascii : isASCII (QName r) = true := isASCII_QName r
  have hpre : isASCII pre = true := by
    rw [hq, isASCII_append] at hascii
    exact (Bool.and_eq_true _ _ ▸ hascii).1
  have hcand : candidateName (QName r) = some (dropTrailingDot pre) := by
    rw [hq]
    exact candidateName_of_isASCII pre hpre
  refine ⟨hcand, ?_⟩
  have hs : HasSuffix (QName r) clusterLocal = true := by
    rw [hq]
    exact HasSuffix_append pre clusterLocal
  simp only [ServeDNS_WhoAmI, hs, if_true, hcand]

/-- C2, witness: `resnet50.cluster.local.` is looked up as `resnet50`; the
question name `é.cluster.local.` has the query name `\195\169.cluster.local.`
and is looked up as `\195\169`, the query name of `é`. -/
theorem ServeDNS_WhoAmI_candidate_name_witness :
    (candidateName (QName (query "resnet50.cluster.local.")) =
        some (dropTrailingDot "resnet50.".toList) ∧
      dropTrailingDot "resnet50.".toList = "resnet50".toList ∧
      ServeDNS_WhoAmI parseIPv4 [] (pluginWith none dirTwoFoo) (query "resnet50.cluster.local.") =
        some (QueryForPodRecord parseIPv4 [] (pluginWith none dirTwoFoo)
          (dropTrailingDot "resnet50.".toList) (query "resnet50.cluster.local."))) ∧
    (QName (query "é.cluster.local.") = sprintName "é.".toList ++ clusterLocal ∧
      candidateName (QName (query "é.cluster.local.")) =
        some (dropTrailingDot (sprintName "é.".toList)) ∧
      dropTrailingDot (sprintName "é.".toList) = sprintName "é".toList ∧
      sprintName "é".toList =
        [Char.ofNat 92, '1', '9', '5', Char.ofNat 92, '1', '6', '9']) :=
  ⟨⟨(ServeDNS_WhoAmI_candidate_name parseIPv4 [] (pluginWith none dirTwoFoo)
        (query "resnet50.cluster.local.") "resnet50.".toList (by decide)).1,
      by decide,
      (ServeDNS_WhoAmI_candidate_name parseIPv4 [] (pluginWith none dirTwoFoo)
        (query "resnet50.cluster.local.") "resnet50.".toList (by decide)).2⟩,
    ⟨by decide,
      (ServeDNS_WhoAmI_candidate_name parseIPv4 [] (pluginWith none dirTwoFoo)
        (query "é.cluster.local.") (sprintName "é.".toList) (by decide)).1,
      by decide, by decide⟩⟩

/-! ## C3: several records with the queried name -/

/-- C3 (as amended): when two or more records of the snapshot have the queried
name, the response `QueryForPodRecord` writes holds one answer for each of
them, in snapshot order (so two or more answers), and its first answer is
built from the first such record in snapshot order. -/
theorem QueryForPodRecord_duplicate_names
    (parseIP : GoString → Option IPv4) (env : Environ) (e : Example) (name : GoString)
    (r : Msg)
    (hdup : 2 ≤ (e.Records.filter (fun rc => decide (rc.Name = name))).length) :
    ∃ msg : Msg,
      QueryForPodRecord parseIP env e name r =
        { code := RcodeSuccess, err := none,
          events := [Event.getRecords, Event.writeMsg msg] } ∧
      msg.Answer =
        (e.Records.filter (fun rc => decide (rc.Name = name))).map
          (answerFor parseIP (GetEnvConfig env "LOCAL_CLUSTER_DNS_RECORD_TTL".toList 30).1 r) ∧
      msg.Answer.length = (e.Records.filter (fun rc => decide (rc.Name = name))).length ∧
      2 ≤ msg.Answer.length ∧
      msg.Answer.head? =
        (e.Records.find? (fun rc => decide (rc.Name = name))).map
          (answerFor parseIP (GetEnvConfig env "LOCAL_CLUSTER_DNS_RECORD_TTL".toList 30).1 r) := by
  refine ⟨responseFor parseIP env e name r, rfl, responseFor_Answer parseIP env e name r, ?_, ?_, ?_⟩
  · rw [responseFor_Answer, List.length_map]
  · rw [responseFor_Answer, List.length_map]
    exact hdup
  · rw [responseFor_Answer, List.head?_map, head?_filter_eq_find?]

/-- C3, witness: the snapshot `foo, bar, foo` queried for `foo`. -/
theorem QueryForPodRecord_duplicate_names_witness :
    ∃ msg : Msg,
      QueryForPodRecord parseIPv4 [] (pluginWith none dirTwoFoo) "foo".toList
          (query "foo.cluster.local.") =
        { code := RcodeSuccess, err := none,
          events := [Event.getRecords, Event.writeMsg msg] } ∧
      msg.Answer =
        (dirTwoFoo.filter (fun rc => decide (rc.Name = "foo".toList))).map
          (answerFor parseIPv4 (GetEnvConfig [] "LOCAL_CLUSTER_DNS_RECORD_TTL".toList 30).1
            (query "foo.cluster.local.")) ∧
      msg.Answer.length = (dirTwoFoo.filter (fun rc => decide (rc.Name = "foo".toList))).length ∧
      2 ≤ msg.Answer.length ∧
      msg.Answer.head? =
        (dirTwoFoo.find? (fun rc => decide (rc.Name = "foo".toList))).map
          (answerFor parseIPv4 (GetEnvConfig [] "LOCAL_CLUSTER_DNS_RECORD_TTL".toList 30).1
            (query "foo.cluster.local.")) :=
  QueryForPodRecord_duplicate_names parseIPv4 [] (pluginWith none dirTwoFoo) "foo".toList
    (query "foo.cluster.local.") (by decide)

/-- C3, counterexample: two records of the snapshot are named `foo`, and the
response to the query `foo.cluster.local.` holds two answers, with the
addresses of both, not one. -/
theorem QueryForPodRecord_duplicate_names_counterexample :
    (dirTwoFoo.filter (fun rc => decide (rc.Name = "foo".toList))).length = 2 ∧
    ServeDNS_WhoAmI parseIPv4 [] (pluginWith none dirTwoFoo) (query "foo.cluster.local.") =
      some (QueryForPodRecord parseIPv4 [] (pluginWith none dirTwoFoo) "foo".toList
        (query "foo.cluster.local.")) ∧
    (QueryForPodRecord parseIPv4 [] (pluginWith none dirTwoFoo) "foo".toList
        (query "foo.cluster.local.")).events =
      [Event.getRecords,
       Event.writeMsg (responseFor parseIPv4 [] (pluginWith none dirTwoFoo) "foo".toList
         (query "foo.cluster.local."))] ∧
    (responseFor parseIPv4 [] (pluginWith none dirTwoFoo) "foo".toList
        (query "foo.cluster.local.")).Answer.map (fun a => a.A) =
      [some [10, 0, 0, 1], some [10, 0, 0, 2]] ∧
    (responseFor parseIPv4 [] (pluginWith none dirTwoFoo) "foo".toList
        (query "foo.cluster.local.")).Answer.length ≠ 1 := by
  decide

/-! ## C4: queries outside `cluster.local.` -/

/-- C4: for a query name that does not end in `cluster.local.`,
`ServeDNS_WhoAmI` returns what `plugin.NextOrFailure` returns for `e.Next` and
the same request: with a next handler, that handler's code and error on the
unmodified request, its call being the only event.  Nothing is read from the
directory (no `GetRecords`, and the outcome is the same whatever the directory
holds) and no response is written. -/
theorem ServeDNS_WhoAmI_out_of_scope
    (parseIP : GoString → Option IPv4) (env : Environ) (e : Example) (r : Msg)
    (hout : HasSuffix (QName r) clusterLocal = false) :
    ServeDNS_WhoAmI parseIP env e r = some (NextOrFailure "example" e.Next r) ∧
    (∀ h : Handler, e.Next = some h →
      ServeDNS_WhoAmI parseIP env e r =
        some { code := (h r).1, err := (h r).2, events := [Event.next r] }) ∧
    (∀ out : Outcome, ServeDNS_WhoAmI parseIP env e r = some out →
      Event.getRecords ∉ out.events ∧ ∀ msg : Msg, Event.writeMsg msg ∉ out.events) ∧
    (∀ records : List PodRecord,
      ServeDNS_WhoAmI parseIP env { e with Records := records } r =
        ServeDNS_WhoAmI parseIP env e r) := by
  have hserve : ∀ e1 : Example,
      ServeDNS_WhoAmI parseIP env e1 r = some (NextOrFailure "example" e1.Next r) := by
    intro e1
    simp only [ServeDNS_WhoAmI, hout, Bool.false_eq_true, if_false]
  refine ⟨hserve e, ?_, ?_, ?_⟩
  · intro h hnext
    rw [hserve e, hnext]
    rfl
  · intro out hout2
    rw [hserve e] at hout2
    have hev : out = NextOrFailure "example" e.Next r := (Option.some.inj hout2).symm
    subst hev
    cases hn : e.Next with
    | none => simp [NextOrFailure]
    | some h => simp [NextOrFailure]
  · intro records
    rw [hserve, hserve]

/-- C4, witness: `www.example.com.` goes to the next handler, whose refusal is
returned. -/
theorem ServeDNS_WhoAmI_out_of_scope_witness :
    ServeDNS_WhoAmI parseIPv4 [] (pluginWith (some refusing) dirTwoFoo)
        (query "www.example.com.") =
      some { code := 5, err := some "refused",
             events := [Event.next (query "www.example.com.")] } :=
  (ServeDNS_WhoAmI_out_of_scope parseIPv4 [] (pluginWith (some refusing) dirTwoFoo)
    (query "www.example.com.") (by decide)).2.1 refusing rfl

/-! ## C5: pods without the label -/

/-- C5: pods that lack the label `userPod="true"` do not influence
`GetUserPodRecords`: the result on a pod list is the result on the list with
those pods removed, and it is the empty slice when no pod carries the label. -/
theorem GetUserPodRecords_ignores_unlabelled (pods : List Pod) :
    GetUserPodRecords pods = GetUserPodRecords (pods.filter Pod.isUserPod) ∧
    ((∀ p ∈ pods, p.isUserPod = false) → GetUserPodRecords pods = some []) := by
  have hfilter : GetUserPodRecords pods = GetUserPodRecords (pods.filter Pod.isUserPod) := by
    induction pods with
    | nil => rfl
    | cons p ps ih =>
      by_cases hp : p.isUserPod = true
      · rw [List.filter_cons_of_pos hp, GetUserPodRecords_cons, GetUserPodRecords_cons, ih]
      · rw [List.filter_cons_of_neg hp, GetUserPodRecords_cons, if_neg hp, ih]
  refine ⟨hfilter, ?_⟩
  intro hnone
  have hnil : pods.filter Pod.isUserPod = [] := by
    rw [List.filter_eq_nil_iff]
    intro a ha
    simp [hnone a ha]
  rw [hfilter, hnil]
  rfl

/-- C5, witness: a list of two unlabelled pods, one of them without any
container, gives no record; an unlabelled pod before a labelled one changes
nothing. -/
theorem GetUserPodRecords_ignores_unlabelled_witness :
    GetUserPodRecords
        [systemPod "kube-proxy-x7" "10.0.0.2" 10249,
         { systemPod "etcd-0" "10.0.0.3" 2379 with Spec := { Containers := [] } }] = some [] ∧
    GetUserPodRecords
        [systemPod "kube-proxy-x7" "10.0.0.2" 10249, userPod "resnet50-abc123" "10.0.0.5" 8080] =
      GetUserPodRecords
        ([systemPod "kube-proxy-x7" "10.0.0.2" 10249,
          userPod "resnet50-abc123" "10.0.0.5" 8080].filter Pod.isUserPod) :=
  ⟨(GetUserPodRecords_ignores_unlabelled _).2 (by decide),
    (GetUserPodRecords_ignores_unlabelled _).1⟩

/-! ## C6: a cycle whose fetch fails -/

/-- C6: when `GetPodsInfo` returns an error in a cycle, the cycle completes
with the plugin as it was before, so the directory holds the records it held,
its only event is the sleep (no `UpdateRecords`), and the loop goes on: the
run of that one cycle completes, a cycle that follows it runs from the
unchanged plugin, and after cycles that completed the failed cycle leaves
their outcome in place. -/
theorem BackgroundLoop_fetch_error
    (env : Environ) (unmarshal : Unmarshal) (seconds : Int) (e : Example)
    (resp : HttpResult) (err : String) (rest : List HttpResult)
    (herr : e.KubeClient.GetPodsInfo unmarshal resp = .error err) :
    BackgroundLoop.cycle unmarshal seconds e resp = some (e, [Event.sleep seconds]) ∧
    (∀ records : List PodRecord, Event.updateRecords records ∉ [Event.sleep seconds]) ∧
    BackgroundLoop env unmarshal e (resp :: rest) =
      (BackgroundLoop env unmarshal e rest).map
        (fun out =>
          (out.1,
            Event.sleep (GetEnvConfig env "KUBELET_STATUS_SYNC_INTERVAL".toList 10).1 :: out.2)) ∧
    BackgroundLoop env unmarshal e [resp] =
      some (e, [Event.sleep (GetEnvConfig env "KUBELET_STATUS_SYNC_INTERVAL".toList 10).1]) ∧
    (∀ (resp2 : HttpResult) (e2 : Example) (ev2 : List Event),
      BackgroundLoop.cycle unmarshal
          (GetEnvConfig env "KUBELET_STATUS_SYNC_INTERVAL".toList 10).1 e resp2 =
        some (e2, ev2) →
      BackgroundLoop env unmarshal e [resp, resp2] =
        some (e2,
          Event.sleep (GetEnvConfig env "KUBELET_STATUS_SYNC_INTERVAL".toList 10).1 :: ev2)) ∧
    (∀ (e0 : Example) (before : List HttpResult) (ev0 : List Event),
      BackgroundLoop env unmarshal e0 before = some (e, ev0) →
      BackgroundLoop env unmarshal e0 (before ++ [resp]) =
        some (e,
          ev0 ++ [Event.sleep (GetEnvConfig env "KUBELET_STATUS_SYNC_INTERVAL".toList 10).1])) := by
  have hcycle : ∀ s : Int, BackgroundLoop.cycle unmarshal s e resp = some (e, [Event.sleep s]) := by
    intro s
    simp only [BackgroundLoop.cycle, herr]
  have hone : ∀ s : Int, BackgroundLoop.run unmarshal s e [resp] = some (e, [Event.sleep s]) := by
    intro s
    simp only [BackgroundLoop.run, hcycle]
    rfl
  refine ⟨hcycle seconds, ?_, ?_, hone _, ?_, ?_⟩
  · intro records
    simp
  · simp only [BackgroundLoop, BackgroundLoop.run, hcycle]
    cases BackgroundLoop.run unmarshal
        (GetEnvConfig env "KUBELET_STATUS_SYNC_INTERVAL".toList 10).1 e rest with
    | none => rfl
    | some out => rfl
  · intro resp2 e2 ev2 h2
    simp only [BackgroundLoop, BackgroundLoop.run, hcycle, h2]
    simp
  · intro e0 before ev0 h0
    simp only [BackgroundLoop] at h0 ⊢
    rw [BackgroundLoop.run_append, h0]
    simp only []
    rw [hone]
    rfl

/-- C6, witness: a refused connection leaves the directory `foo, bar, foo` in
place; and from an empty directory, a cycle that installs the record
`resnet50` followed by a cycle whose fetch is refused ends with the directory
holding `resnet50`. -/
theorem BackgroundLoop_fetch_error_witness :
    BackgroundLoop.cycle (decodingTo []) 10 (pluginWith none dirTwoFoo)
        (.error "connection refused") =
      some (pluginWith none dirTwoFoo, [Event.sleep 10]) ∧
    BackgroundLoop [] (decodingTo [userPod "resnet50-abc123" "10.0.0.5" 8080])
        (pluginWith none []) ([.ok ([], 200)] ++ [.error "connection refused"]) =
      some (pluginWith none [{ Name := "resnet50".toList, Ip := "10.0.0.5".toList, Port := 8080 }],
        [Event.updateRecords
            [{ Name := "resnet50".toList, Ip := "10.0.0.5".toList, Port := 8080 }],
          Event.sleep 10] ++ [Event.sleep 10]) :=
  ⟨(BackgroundLoop_fetch_error [] (decodingTo []) 10 (pluginWith none dirTwoFoo)
      (.error "connection refused") "connection refused" [] rfl).1,
    (BackgroundLoop_fetch_error [] (decodingTo [userPod "resnet50-abc123" "10.0.0.5" 8080]) 10
      (pluginWith none [{ Name := "resnet50".toList, Ip := "10.0.0.5".toList, Port := 8080 }])
      (.error "connection refused") "connection refused" [] rfl).2.2.2.2.2
      (pluginWith none []) [.ok ([], 200)]
      [Event.updateRecords
          [{ Name := "resnet50".toList, Ip := "10.0.0.5".toList, Port := 8080 }],
        Event.sleep 10]
      rfl⟩

/-! ## C7: a body that cannot be deserialized -/

/-- C7 (what the code does): when `HttpGet` succeeds and `json.Unmarshal`
returns an error, `GetPodsInfo` drops that error and returns the items left in
the pod list with a nil error, so the cycle calls `UpdateRecords` with the
records of those items, replacing the directory; `GetRunningPods` returns the
decoding error on the same body. -/
theorem BackgroundLoop_cycle_decode_failure
    (unmarshal : Unmarshal) (seconds : Int) (e : Example) (data : Bytes) (status : Int)
    (err : String) (records : List PodRecord)
    (hfail : (unmarshal data).2 = some err)
    (hrec : GetUserPodRecords (e.KubeClient.removeHostName (unmarshal data).1.Items) =
      some records) :
    e.KubeClient.GetPodsInfo unmarshal (.ok (data, status)) =
      .ok (e.KubeClient.removeHostName (unmarshal data).1.Items) ∧
    BackgroundLoop.cycle unmarshal seconds e (.ok (data, status)) =
      some (UpdateRecords e records, [Event.updateRecords records, Event.sleep seconds]) ∧
    e.KubeClient.GetRunningPods unmarshal (.ok (data, status)) = .error err := by
  refine ⟨rfl, ?_, ?_⟩
  · simp only [BackgroundLoop.cycle, Client.GetPodsInfo, hrec]
  · simp only [Client.GetRunningPods, hfail]

/-- C7, witness: with the directory `foo, bar, foo`, a cycle whose body is
`<html>` empties the directory. -/
theorem BackgroundLoop_cycle_decode_failure_witness :
    (pluginWith none dirTwoFoo).Records = dirTwoFoo ∧
    BackgroundLoop.cycle rejectingUnmarshal 10 (pluginWith none dirTwoFoo)
        (.ok (htmlBody, 200)) =
      some (UpdateRecords (pluginWith none dirTwoFoo) [],
        [Event.updateRecords [], Event.sleep 10]) ∧
    (UpdateRecords (pluginWith none dirTwoFoo) []).Records = [] :=
  ⟨rfl,
    (BackgroundLoop_cycle_decode_failure rejectingUnmarshal 10 (pluginWith none dirTwoFoo)
      htmlBody 200 "invalid character looking for beginning of value" [] rfl rfl).2.1,
    rfl⟩

/-! ## C8: pods whose address is not an IPv4 literal -/

/-- C8 (as amended): `GetUserPodRecords` does not look at the address.  When
it completes, the `Ip` fields of its records are the `Status.PodIP` strings of
the labelled pods, in order, valid or not; a labelled pod whose name can be cut
and whose first container declares a port gets a record carrying its
`Status.PodIP` as it is, and the answer built from that record has the address
`parseIP` gives for that string (nil when it does not parse). -/
theorem GetUserPodRecords_keeps_PodIP :
    (∀ (pods : List Pod) (records : List PodRecord),
      GetUserPodRecords pods = some records →
        records.map (fun rc => rc.Ip) =
          (pods.filter Pod.isUserPod).map (fun pod => pod.Status.PodIP)) ∧
    (∀ (pod : Pod) (name : GoString) (c : Container) (cs : List Container)
        (port : ContainerPort) (ps : List ContainerPort),
      pod.isUserPod = true → recordName pod.Name = some name →
      pod.Spec.Containers = c :: cs → c.Ports = port :: ps →
        GetUserPodRecords [pod] =
          some [{ Name := name, Ip := pod.Status.PodIP, Port := port.ContainerPort }] ∧
        ∀ (parseIP : GoString → Option IPv4) (ttl : Int) (r : Msg),
          (answerFor parseIP ttl r
            { Name := name, Ip := pod.Status.PodIP, Port := port.ContainerPort }).A =
              parseIP pod.Status.PodIP) := by
  constructor
  · intro pods
    induction pods with
    | nil =>
      intro records h
      have : records = [] := by
        have h0 : GetUserPodRecords [] = some [] := rfl
        rw [h0] at h
        exact (Option.some.inj h).symm
      subst this
      rfl
    | cons p ps ih =>
      intro records h
      rw [GetUserPodRecords_cons] at h
      by_cases hp : p.isUserPod = true
      · rw [if_pos hp] at h
        cases hrc : userPodRecord p with
        | none => rw [hrc] at h; cases h
        | some rc =>
          rw [hrc] at h
          cases hps : GetUserPodRecords ps with
          | none => rw [hps] at h; cases h
          | some rest =>
            rw [hps] at h
            have hrecords : records = rc :: rest := (Option.some.inj h).symm
            have hip : rc.Ip = p.Status.PodIP := by
              unfold userPodRecord at hrc
              split at hrc
              · cases hrc
              · split at hrc
                · cases hrc
                · split at hrc
                  · cases hrc
                  · cases hrc
                    rfl
            rw [hrecords, List.filter_cons_of_pos hp, List.map_cons, List.map_cons, hip,
              ih rest hps]
      · rw [if_neg hp] at h
        rw [List.filter_cons_of_neg hp]
        exact ih records h
  · intro pod name c cs port ps hlabel hname hc hp
    refine ⟨?_, fun _ _ _ => rfl⟩
    rw [GetUserPodRecords_cons, if_pos hlabel]
    simp only [userPodRecord, hname, hc, hp]
    rfl

/-- C8, witness: a labelled pod that has no address yet, and one with a host
name for an address, each get a record carrying that string. -/
theorem GetUserPodRecords_keeps_PodIP_witness :
    GetUserPodRecords [userPod "resnet50-abc123" "" 8080] =
      some [{ Name := "resnet50".toList, Ip := [], Port := 8080 }] ∧
    [({ Name := "resnet50".toList, Ip := "node-7".toList, Port := 8080 } : PodRecord)].map
        (fun rc => rc.Ip) =
      ([userPod "resnet50-abc123" "node-7" 8080].filter Pod.isUserPod).map
        (fun pod => pod.Status.PodIP) :=
  ⟨(GetUserPodRecords_keeps_PodIP.2 (userPod "resnet50-abc123" "" 8080) "resnet50".toList
      { Ports := [{ ContainerPort := 8080 }] } [] { ContainerPort := 8080 } []
      (by decide) (by decide) rfl rfl).1,
    GetUserPodRecords_keeps_PodIP.1 [userPod "resnet50-abc123" "node-7" 8080] _ (by decide)⟩

/-- C8, counterexample: the labelled pod `resnet50-abc123` has the address
`not-an-ip`, which is no IPv4 literal; `GetUserPodRecords` builds a record for
it, a cycle installs that record in the directory, and the answer to a query
for it carries a nil address. -/
theorem GetUserPodRecords_invalid_ip_counterexample :
    (userPod "resnet50-abc123" "not-an-ip" 8080).isUserPod = true ∧
    isIPv4Literal (userPod "resnet50-abc123" "not-an-ip" 8080).Status.PodIP = false ∧
    GetUserPodRecords [userPod "resnet50-abc123" "not-an-ip" 8080] =
      some [{ Name := "resnet50".toList, Ip := "not-an-ip".toList, Port := 8080 }] ∧
    (BackgroundLoop.cycle (decodingTo [userPod "resnet50-abc123" "not-an-ip" 8080]) 10
        (pluginWith none []) (.ok ([], 200))).map (fun out => out.1.Records) =
      some [{ Name := "resnet50".toList, Ip := "not-an-ip".toList, Port := 8080 }] ∧
    (responseFor parseIPv4 []
        (pluginWith none [{ Name := "resnet50".toList, Ip := "not-an-ip".toList, Port := 8080 }])
        "resnet50".toList (query "resnet50.cluster.local.")).Answer.map (fun a => a.A) =
      [none] := by
  decide

/-! ## C9: matching is exact -/

/-- C9: the answers of the response are built from exactly the records of the
snapshot whose `Name` equals the candidate name as a string (every rune equal,
so case-sensitive, no wildcard and no partial match), one answer for each, and
the response has an answer if and only if such a record exists. -/
theorem QueryForPodRecord_exact_match
    (parseIP : GoString → Option IPv4) (env : Environ) (e : Example) (name : GoString)
    (r : Msg) :
    ∃ msg : Msg,
      QueryForPodRecord parseIP env e name r =
        { code := RcodeSuccess, err := none,
          events := [Event.getRecords, Event.writeMsg msg] } ∧
      msg.Answer =
        (e.Records.filter (fun rc => decide (rc.Name = name))).map
          (answerFor parseIP (GetEnvConfig env "LOCAL_CLUSTER_DNS_RECORD_TTL".toList 30).1 r) ∧
      (∀ a : A, a ∈ msg.Answer ↔
        ∃ rc ∈ e.Records, rc.Name = name ∧
          a = answerFor parseIP (GetEnvConfig env "LOCAL_CLUSTER_DNS_RECORD_TTL".toList 30).1 r rc) ∧
      (msg.Answer ≠ [] ↔ ∃ rc ∈ e.Records, rc.Name = name) := by
  refine ⟨responseFor parseIP env e name r, rfl, responseFor_Answer parseIP env e name r, ?_, ?_⟩
  · intro a
    rw [responseFor_Answer, List.mem_map]
    constructor
    · rintro ⟨rc, hrc, ha⟩
      rw [List.mem_filter] at hrc
      exact ⟨rc, hrc.1, of_decide_eq_true hrc.2, ha.symm⟩
    · rintro ⟨rc, hmem, hname, ha⟩
      exact ⟨rc, List.mem_filter.mpr ⟨hmem, decide_eq_true hname⟩, ha.symm⟩
  · rw [responseFor_Answer]
    constructor
    · intro hne
      cases hf : e.Records.filter (fun rc => decide (rc.Name = name)) with
      | nil => rw [hf] at hne; exact absurd rfl hne
      | cons rc t =>
        have hrc : rc ∈ e.Records.filter (fun rc => decide (rc.Name = name)) := by
          rw [hf]
          exact List.mem_cons_self rc t
        rw [List.mem_filter] at hrc
        exact ⟨rc, hrc.1, of_decide_eq_true hrc.2⟩
    · rintro ⟨rc, hmem, hname⟩ hnil
      have hrc : rc ∈ e.Records.filter (fun rc => decide (rc.Name = name)) :=
        List.mem_filter.mpr ⟨hmem, decide_eq_true hname⟩
      have hnil2 := List.map_eq_nil_iff.mp hnil
      rw [hnil2] at hrc
      cases hrc

/-- C9, examples: against the snapshot `foo, bar, foo`, the names `Foo`, `fo`,
`foo.`, `*` and the empty name get no answer, and `bar` gets one. -/
theorem QueryForPodRecord_exact_match_examples :
    (responseFor parseIPv4 [] (pluginWith none dirTwoFoo) "Foo".toList
        (query "Foo.cluster.local.")).Answer = [] ∧
    (responseFor parseIPv4 [] (pluginWith none dirTwoFoo) "fo".toList
        (query "fo.cluster.local.")).Answer = [] ∧
    (responseFor parseIPv4 [] (pluginWith none dirTwoFoo) "foo.".toList
        (query "foo..cluster.local.")).Answer = [] ∧
    (responseFor parseIPv4 [] (pluginWith none dirTwoFoo) "*".toList
        (query "*.cluster.local.")).Answer = [] ∧
    (responseFor parseIPv4 [] (pluginWith none dirTwoFoo) []
        (query "cluster.local.")).Answer = [] ∧
    (responseFor parseIPv4 [] (pluginWith none dirTwoFoo) "bar".toList
        (query "bar.cluster.local.")).Answer.map (fun a => a.A) = [some [10, 0, 0, 3]] := by
  decide

/-! ## C10: the answer to a matching query -/

/-- C10: for a query in scope whose candidate name is the `Name` of a record
of the directory, `ServeDNS_WhoAmI` writes a response among whose answers is
the type-`A` record with the query name as owner, the query class, the TTL
`uint32(ttl)` of the configured `ttl` and the address parsed from the
record's `Ip`; every answer has that header.  The TTL is 30 when
`LOCAL_CLUSTER_DNS_RECORD_TTL` is unset, and the configured integer itself
when that is set to an integer from 0 to 2^32-1. -/
theorem ServeDNS_WhoAmI_answer
    (parseIP : GoString → Option IPv4) (env : Environ) (e : Example) (r : Msg)
    (name : GoString) (rc : PodRecord)
    (hscope : HasSuffix (QName r) clusterLocal = true)
    (hcand : candidateName (QName r) = some name)
    (hmem : rc ∈ e.Records) (hname : rc.Name = name) :
    ∃ msg : Msg,
      ServeDNS_WhoAmI parseIP env e r =
        some { code := RcodeSuccess, err := none,
               events := [Event.getRecords, Event.writeMsg msg] } ∧
      ({ Hdr := { Name := QName r, Rrtype := TypeA, Class := QClass r,
                  Ttl := toUint32 (GetEnvConfig env "LOCAL_CLUSTER_DNS_RECORD_TTL".toList 30).1 },
         A := parseIP rc.Ip } : A) ∈ msg.Answer ∧
      (∀ a ∈ msg.Answer,
        a.Hdr = { Name := QName r, Rrtype := TypeA, Class := QClass r,
                  Ttl := toUint32 (GetEnvConfig env "LOCAL_CLUSTER_DNS_RECORD_TTL".toList 30).1 }) ∧
      (LookupEnv env "LOCAL_CLUSTER_DNS_RECORD_TTL".toList = none →
        toUint32 (GetEnvConfig env "LOCAL_CLUSTER_DNS_RECORD_TTL".toList 30).1 = 30) ∧
      (∀ (s : GoString) (v : Int),
        LookupEnv env "LOCAL_CLUSTER_DNS_RECORD_TTL".toList = some s → Atoi s = some v →
        0 ≤ v → v < (2 : Int) ^ 32 →
          (toUint32 (GetEnvConfig env "LOCAL_CLUSTER_DNS_RECORD_TTL".toList 30).1 : Int) = v) := by
  refine ⟨responseFor parseIP env e name r, ?_, ?_, ?_, ?_, ?_⟩
  · simp only [ServeDNS_WhoAmI, hscope, if_true, hcand]
    rfl
  · rw [responseFor_Answer, List.mem_map]
    exact ⟨rc, List.mem_filter.mpr ⟨hmem, decide_eq_true hname⟩, rfl⟩
  · intro a ha
    rw [responseFor_Answer, List.mem_map] at ha
    obtain ⟨rc2, _, rfl⟩ := ha
    rfl
  · intro hunset
    simp only [GetEnvConfig, hunset]
    decide
  · intro s v hset hatoi h0 h32
    simp only [GetEnvConfig, hset, hatoi, toUint32]
    rw [Int.emod_eq_of_lt h0 h32]
    exact Int.toNat_of_nonneg h0

/-- C10, witness: with the TTL set to `60`, the query `bar.cluster.local.`
against the snapshot `foo, bar, foo` is answered with the address of `bar`. -/
theorem ServeDNS_WhoAmI_answer_witness :
    ∃ msg : Msg,
      ServeDNS_WhoAmI parseIPv4 [("LOCAL_CLUSTER_DNS_RECORD_TTL".toList, "60".toList)]
          (pluginWith none dirTwoFoo) (query "bar.cluster.local.") =
        some { code := RcodeSuccess, err := none,
               events := [Event.getRecords, Event.writeMsg msg] } ∧
      ({ Hdr := { Name := "bar.cluster.local.".toList, Rrtype := 1, Class := 1, Ttl := 60 },
         A := some [10, 0, 0, 3] } : A) ∈ msg.Answer :=
  match ServeDNS_WhoAmI_answer parseIPv4 [("LOCAL_CLUSTER_DNS_RECORD_TTL".toList, "60".toList)]
      (pluginWith none dirTwoFoo) (query "bar.cluster.local.") "bar".toList
      { Name := "bar".toList, Ip := "10.0.0.3".toList, Port := 80 }
      (by decide) (by decide) (by decide) rfl with
  | ⟨msg, hserve, hmem, _⟩ => ⟨msg, hserve, hmem⟩

/-! ## Lemmas on the response message -/

theorem SetReply_new (r : Msg) :
    (SetReply Msg.new r).Id = r.Id ∧ (SetReply Msg.new r).Response = true ∧
    (SetReply Msg.new r).Opcode = r.Opcode ∧ (SetReply Msg.new r).Rcode = 0 ∧
    (SetReply Msg.new r).Question = r.Question.take 1 ∧
    (SetReply Msg.new r).Answer = [] := by
  unfold SetReply
  cases hq : r.Question with
  | nil => by_cases ho : r.Opcode = OpcodeQuery <;> simp [ho, Msg.new]
  | cons q qs => by_cases ho : r.Opcode = OpcodeQuery <;> simp [ho, Msg.new]

theorem responseFor_reply (parseIP : GoString → Option IPv4) (env : Environ) (e : Example)
    (name : GoString) (r : Msg) :
    (responseFor parseIP env e name r).Id = r.Id ∧
    (responseFor parseIP env e name r).Response = true ∧
    (responseFor parseIP env e name r).Opcode = r.Opcode ∧
    (responseFor parseIP env e name r).Rcode = 0 ∧
    (responseFor parseIP env e name r).Question = r.Question.take 1 ∧
    (responseFor parseIP env e name r).Authoritative = true ∧
    (responseFor parseIP env e name r).RecursionAvailable = true := by
  obtain ⟨h1, h2, h3, h4, h5, _⟩ := SetReply_new r
  exact ⟨h1, h2, h3, h4, h5, rfl, rfl⟩

theorem ServeDNS_WhoAmI_in_scope (parseIP : GoString → Option IPv4) (env : Environ)
    (e : Example) (r : Msg) (name : GoString)
    (hscope : HasSuffix (QName r) clusterLocal = true)
    (hcand : candidateName (QName r) = some name) :
    ServeDNS_WhoAmI parseIP env e r = some (QueryForPodRecord parseIP env e name r) := by
  simp only [ServeDNS_WhoAmI, hscope, if_true, hcand]

theorem recordName_of_not_mem (name : GoString) (h : '-' ∉ name) :
    recordName name = some name := by
  simp [recordName, LastIndex_of_not_mem _ _ h]

/-! ## C11: an in-scope query that matches no record -/

/-- C11: for a query in scope whose candidate name is the `Name` of no record
of the directory, `ServeDNS_WhoAmI` writes a response whose answer section is
empty and whose rcode is 0, and returns `dns.RcodeSuccess` with a nil error,
which is not `dns.RcodeNameError`. -/
theorem ServeDNS_WhoAmI_no_match
    (parseIP : GoString → Option IPv4) (env : Environ) (e : Example) (r : Msg)
    (name : GoString)
    (hscope : HasSuffix (QName r) clusterLocal = true)
    (hcand : candidateName (QName r) = some name)
    (hno : ∀ rc ∈ e.Records, rc.Name ≠ name) :
    ∃ msg : Msg,
      ServeDNS_WhoAmI parseIP env e r =
        some { code := RcodeSuccess, err := none,
               events := [Event.getRecords, Event.writeMsg msg] } ∧
      msg.Answer = [] ∧ msg.Rcode = 0 ∧ RcodeSuccess ≠ RcodeNameError := by
  refine ⟨responseFor parseIP env e name r, ?_, ?_, (responseFor_reply parseIP env e name r).2.2.2.1,
    by decide⟩
  · rw [ServeDNS_WhoAmI_in_scope parseIP env e r name hscope hcand]
    rfl
  · rw [responseFor_Answer]
    have hnil : e.Records.filter (fun rc => decide (rc.Name = name)) = [] := by
      rw [List.filter_eq_nil_iff]
      intro rc hrc
      simp [hno rc hrc]
    rw [hnil]
    rfl

/-- C11, witness: `baz.cluster.local.` against the snapshot `foo, bar, foo`. -/
theorem ServeDNS_WhoAmI_no_match_witness :
    ∃ msg : Msg,
      ServeDNS_WhoAmI parseIPv4 [] (pluginWith none dirTwoFoo) (query "baz.cluster.local.") =
        some { code := RcodeSuccess, err := none,
               events := [Event.getRecords, Event.writeMsg msg] } ∧
      msg.Answer = [] ∧ msg.Rcode = 0 ∧ RcodeSuccess ≠ RcodeNameError :=
  ServeDNS_WhoAmI_no_match parseIPv4 [] (pluginWith none dirTwoFoo)
    (query "baz.cluster.local.") "baz".toList (by decide) (by decide) (by decide)

/-! ## C12: the response to an in-scope query -/

/-- C12: whatever the name and the directory, `QueryForPodRecord` returns
`(dns.RcodeSuccess, nil)` after one read of the directory and exactly one
`WriteMsg`, of a message that is a reply to the request (its id, opcode and
first question, the response bit, rcode 0) with `Authoritative` and
`RecursionAvailable` set; and this is what `ServeDNS_WhoAmI` does for a query
in scope, with the candidate name computed from the query name. -/
theorem QueryForPodRecord_writes_reply
    (parseIP : GoString → Option IPv4) (env : Environ) (e : Example) (r : Msg)
    (name : GoString) :
    (∃ msg : Msg,
      QueryForPodRecord parseIP env e name r =
        { code := RcodeSuccess, err := none,
          events := [Event.getRecords, Event.writeMsg msg] } ∧
      msg.Id = r.Id ∧ msg.Response = true ∧ msg.Opcode = r.Opcode ∧ msg.Rcode = 0 ∧
      msg.Question = r.Question.take 1 ∧
      msg.Authoritative = true ∧ msg.RecursionAvailable = true) ∧
    (HasSuffix (QName r) clusterLocal = true → candidateName (QName r) = some name →
      ServeDNS_WhoAmI parseIP env e r = some (QueryForPodRecord parseIP env e name r)) ∧
    (HasSuffix (QName r) clusterLocal = true → isASCII (QName r) = true →
      ∃ cand : GoString, candidateName (QName r) = some cand) := by
  refine ⟨⟨responseFor parseIP env e name r, rfl, responseFor_reply parseIP env e name r⟩,
    ServeDNS_WhoAmI_in_scope parseIP env e r name, ?_⟩
  intro hscope hascii
  have hsuf : clusterLocal <:+ QName r := List.isSuffixOf_iff_suffix.mp hscope
  obtain ⟨pre, hpre⟩ := hsuf
  have hp : isASCII pre = true := by
    rw [← hpre, isASCII_append] at hascii
    exact (Bool.and_eq_true _ _ ▸ hascii).1
  exact ⟨dropTrailingDot pre, by rw [← hpre]; exact candidateName_of_isASCII pre hp⟩

/-- C12, witness: the response to `bar.cluster.local.` (matched) and to
`baz.cluster.local.` (not matched). -/
theorem QueryForPodRecord_writes_reply_witness :
    (ServeDNS_WhoAmI parseIPv4 [] (pluginWith none dirTwoFoo) (query "bar.cluster.local.") =
      some (QueryForPodRecord parseIPv4 [] (pluginWith none dirTwoFoo) "bar".toList
        (query "bar.cluster.local."))) ∧
    (ServeDNS_WhoAmI parseIPv4 [] (pluginWith none dirTwoFoo) (query "baz.cluster.local.") =
      some (QueryForPodRecord parseIPv4 [] (pluginWith none dirTwoFoo) "baz".toList
        (query "baz.cluster.local."))) :=
  ⟨(QueryForPodRecord_writes_reply parseIPv4 [] (pluginWith none dirTwoFoo)
      (query "bar.cluster.local.") "bar".toList).2.1 (by decide) (by decide),
    (QueryForPodRecord_writes_reply parseIPv4 [] (pluginWith none dirTwoFoo)
      (query "baz.cluster.local.") "baz".toList).2.1 (by decide) (by decide)⟩

/-! ## C13: the record name of a labelled pod whose name has no `-` -/

/-- C13: for a pod labelled `userPod="true"` whose name contains no `-` and
whose first container declares a port, placed between pods for which
`GetUserPodRecords` completes, the record built for the pod has the pod name,
unchanged, as its `Name`. -/
theorem GetUserPodRecords_name_without_dash
    (before after : List Pod) (pod : Pod)
    (c : Container) (cs : List Container) (port : ContainerPort) (ps : List ContainerPort)
    (rb ra : List PodRecord)
    (hlabel : pod.isUserPod = true) (hname : '-' ∉ pod.Name)
    (hc : pod.Spec.Containers = c :: cs) (hp : c.Ports = port :: ps)
    (hb : GetUserPodRecords before = some rb) (ha : GetUserPodRecords after = some ra) :
    GetUserPodRecords (before ++ pod :: after) =
      some (rb ++ { Name := pod.Name, Ip := pod.Status.PodIP,
                    Port := port.ContainerPort } :: ra) := by
  apply GetUserPodRecords_insert _ _ _ _ _ _ hlabel _ hb ha
  simp only [userPodRecord, recordName_of_not_mem pod.Name hname, hc, hp]

/-- C13, witness: the labelled pod `resnet50` gives the record named
`resnet50`. -/
theorem GetUserPodRecords_name_without_dash_witness :
    GetUserPodRecords ([] ++ userPod "resnet50" "10.0.0.5" 8080 :: []) =
      some ([] ++ { Name := "resnet50".toList, Ip := "10.0.0.5".toList, Port := 8080 } :: []) :=
  GetUserPodRecords_name_without_dash [] [] (userPod "resnet50" "10.0.0.5" 8080)
    { Ports := [{ ContainerPort := 8080 }] } [] { ContainerPort := 8080 } [] [] []
    (by decide) (by decide) rfl rfl rfl rfl

/-! ## Lemmas for the end-to-end scenario -/

theorem recordName_resnet50_trimmed (iid : GoString) :
    recordName (TrimSuffix "resnet50-abc123".toList ('-' :: iid)) = some "resnet50".toList := by
  by_cases h : HasSuffix "resnet50-abc123".toList ('-' :: iid) = true
  · have hmem : ('-' :: iid) ∈ "resnet50-abc123".toList.tails :=
      (List.mem_tails _ _).mpr (List.isSuffixOf_iff_suffix.mp h)
    have key : ∀ y ∈ "resnet50-abc123".toList.tails, y.head? = some '-' →
        recordName (TrimSuffix "resnet50-abc123".toList y) = some "resnet50".toList := by
      decide
    exact key _ hmem rfl
  · have : TrimSuffix "resnet50-abc123".toList ('-' :: iid) = "resnet50-abc123".toList := by
      simp only [TrimSuffix, h]
      rfl
    rw [this]
    decide

theorem GetEnvConfig_unset (env : Environ) (envVar : GoString) (d : Int)
    (h : LookupEnv env envVar = none) : GetEnvConfig env envVar d = (d, none) := by
  simp only [GetEnvConfig, h]

theorem GetEnvConfig_unparsable (env : Environ) (envVar s : GoString) (d : Int)
    (h : LookupEnv env envVar = some s) (ha : Atoi s = none) :
    GetEnvConfig env envVar d = (d, some "strconv.Atoi: parsing failed") := by
  simp only [GetEnvConfig, h, ha]

theorem GetEnvConfig_parsed (env : Environ) (envVar s : GoString) (d n : Int)
    (h : LookupEnv env envVar = some s) (ha : Atoi s = some n) :
    GetEnvConfig env envVar d = (n, none) := by
  simp only [GetEnvConfig, h, ha]

/-! ## C14: one cycle, then a query -/

/-- C14: starting from an empty directory, a cycle in which the kubelet
returns the single pod `resnet50-abc123`, labelled `userPod="true"`, with
`PodIP` `10.0.0.5` and first container port 8080, installs the record
`resnet50`, whatever the instance id of the client; the query
`resnet50.cluster.local.` is then answered with exactly one `A` record, whose
address is what `net.ParseIP` reads from `10.0.0.5`, that is 10.0.0.5. -/
theorem cycle_then_query_resnet50
    (parseIP : GoString → Option IPv4) (env : Environ) (unmarshal : Unmarshal)
    (seconds : Int) (next : Option Handler) (kc : Client) (data : Bytes) (status : Int)
    (pod : Pod) (c : Container) (cs : List Container) (port : ContainerPort)
    (ps : List ContainerPort) (r : Msg)
    (hdec : (unmarshal data).1 = { Items := [pod] })
    (hlabel : pod.isUserPod = true)
    (hname : pod.Name = "resnet50-abc123".toList)
    (hip : pod.Status.PodIP = "10.0.0.5".toList)
    (hc : pod.Spec.Containers = c :: cs) (hp : c.Ports = port :: ps)
    (hport : port.ContainerPort = 8080)
    (hparse : parseIP "10.0.0.5".toList = some [10, 0, 0, 5])
    (hq : QName r = "resnet50.cluster.local.".toList) :
    ∃ (e1 : Example) (msg : Msg),
      BackgroundLoop.cycle unmarshal seconds { Next := next, KubeClient := kc, Records := [] }
          (.ok (data, status)) =
        some (e1, [Event.updateRecords
                     [{ Name := "resnet50".toList, Ip := "10.0.0.5".toList, Port := 8080 }],
                   Event.sleep seconds]) ∧
      e1.Records = [{ Name := "resnet50".toList, Ip := "10.0.0.5".toList, Port := 8080 }] ∧
      ServeDNS_WhoAmI parseIP env e1 r =
        some { code := RcodeSuccess, err := none,
               events := [Event.getRecords, Event.writeMsg msg] } ∧
      msg.Answer =
        [{ Hdr := { Name := QName r, Rrtype := TypeA, Class := QClass r,
                    Ttl := toUint32 (GetEnvConfig env "LOCAL_CLUSTER_DNS_RECORD_TTL".toList 30).1 },
           A := some [10, 0, 0, 5] }] := by
  have hrecs : GetUserPodRecords (kc.removeHostName [pod]) =
      some [{ Name := "resnet50".toList, Ip := "10.0.0.5".toList, Port := 8080 }] := by
    unfold Client.removeHostName
    split
    · rw [List.map_cons, List.map_nil, GetUserPodRecords_cons]
      have hl : Pod.isUserPod
          { pod with Name := TrimSuffix pod.Name ('-' :: kc.instanceId) } = true := hlabel
      rw [if_pos hl]
      simp only [userPodRecord, hname, recordName_resnet50_trimmed, hc, hp, hip, hport]
      rfl
    · rw [GetUserPodRecords_cons, if_pos hlabel]
      have hn : recordName pod.Name = some "resnet50".toList := by rw [hname]; decide
      simp only [userPodRecord, hn, hc, hp, hip, hport]
      rfl
  refine ⟨UpdateRecords { Next := next, KubeClient := kc, Records := [] }
      [{ Name := "resnet50".toList, Ip := "10.0.0.5".toList, Port := 8080 }],
    responseFor parseIP env
      (UpdateRecords { Next := next, KubeClient := kc, Records := [] }
        [{ Name := "resnet50".toList, Ip := "10.0.0.5".toList, Port := 8080 }])
      "resnet50".toList r, ?_, rfl, ?_, ?_⟩
  · simp only [BackgroundLoop.cycle, Client.GetPodsInfo, hdec, hrecs]
  · rw [ServeDNS_WhoAmI_in_scope parseIP env _ r "resnet50".toList (by rw [hq]; decide)
      (by rw [hq]; decide)]
    rfl
  · rw [responseFor_Answer]
    simp only [UpdateRecords, List.filter_cons, List.filter_nil, decide_True, if_true,
      List.map_cons, List.map_nil, answerFor, hparse]

/-- C14, witness: the scenario with the dotted-decimal parser, a decoder that
reads the pod, the default TTL and no instance id. -/
theorem cycle_then_query_resnet50_witness :
    ∃ (e1 : Example) (msg : Msg),
      BackgroundLoop.cycle (decodingTo [userPod "resnet50-abc123" "10.0.0.5" 8080]) 10
          { Next := none, KubeClient := { instanceId := [] }, Records := [] }
          (.ok ([], 200)) =
        some (e1, [Event.updateRecords
                     [{ Name := "resnet50".toList, Ip := "10.0.0.5".toList, Port := 8080 }],
                   Event.sleep 10]) ∧
      e1.Records = [{ Name := "resnet50".toList, Ip := "10.0.0.5".toList, Port := 8080 }] ∧
      ServeDNS_WhoAmI parseIPv4 [] e1 (query "resnet50.cluster.local.") =
        some { code := RcodeSuccess, err := none,
               events := [Event.getRecords, Event.writeMsg msg] } ∧
      msg.Answer =
        [{ Hdr := { Name := "resnet50.cluster.local.".toList, Rrtype := 1, Class := 1, Ttl := 30 },
           A := some [10, 0, 0, 5] }] :=
  cycle_then_query_resnet50 parseIPv4 [] (decodingTo [userPod "resnet50-abc123" "10.0.0.5" 8080])
    10 none { instanceId := [] } [] 200 (userPod "resnet50-abc123" "10.0.0.5" 8080)
    { Ports := [{ ContainerPort := 8080 }] } [] { ContainerPort := 8080 } []
    (query "resnet50.cluster.local.") rfl (by decide) rfl rfl rfl rfl rfl (by decide) rfl

/-! ## C15: `GetEnvConfig` and the defaults -/

/-- C15: `GetEnvConfig(envVar, d)` returns `d` with a nil error when the
variable is unset, `d` with a non-nil error when its value is rejected by
`strconv.Atoi`, and the parsed integer with a nil error otherwise.  So when
`KUBELET_STATUS_SYNC_INTERVAL` is unset or unparsable the loop sleeps 10
between cycles, and when `LOCAL_CLUSTER_DNS_RECORD_TTL` is unset or
unparsable the answers are built with the TTL 30. -/
theorem GetEnvConfig_default_or_parsed (env : Environ) (envVar : GoString) (d : Int) :
    (LookupEnv env envVar = none → GetEnvConfig env envVar d = (d, none)) ∧
    (∀ s : GoString, LookupEnv env envVar = some s → Atoi s = none →
      (GetEnvConfig env envVar d).1 = d ∧ (GetEnvConfig env envVar d).2 ≠ none) ∧
    (∀ (s : GoString) (n : Int), LookupEnv env envVar = some s → Atoi s = some n →
      GetEnvConfig env envVar d = (n, none)) ∧
    ((LookupEnv env "KUBELET_STATUS_SYNC_INTERVAL".toList = none ∨
        ∃ s, LookupEnv env "KUBELET_STATUS_SYNC_INTERVAL".toList = some s ∧ Atoi s = none) →
      ∀ (unmarshal : Unmarshal) (e : Example) (resps : List HttpResult),
        BackgroundLoop env unmarshal e resps = BackgroundLoop.run unmarshal 10 e resps) ∧
    ((LookupEnv env "LOCAL_CLUSTER_DNS_RECORD_TTL".toList = none ∨
        ∃ s, LookupEnv env "LOCAL_CLUSTER_DNS_RECORD_TTL".toList = some s ∧ Atoi s = none) →
      ∀ (parseIP : GoString → Option IPv4) (e : Example) (name : GoString) (r : Msg),
        (responseFor parseIP env e name r).Answer =
          (e.Records.filter (fun rc => decide (rc.Name = name))).map (answerFor parseIP 30 r) ∧
        toUint32 30 = 30) := by
  refine ⟨GetEnvConfig_unset env envVar d, ?_, ?_, ?_, ?_⟩
  · intro s h ha
    rw [GetEnvConfig_unparsable env envVar s d h ha]
    exact ⟨rfl, by simp⟩
  · intro s n h ha
    exact GetEnvConfig_parsed env envVar s d n h ha
  · intro h unmarshal e resps
    have h10 : (GetEnvConfig env "KUBELET_STATUS_SYNC_INTERVAL".toList 10).1 = 10 := by
      rcases h with h | ⟨s, h, ha⟩
      · rw [GetEnvConfig_unset _ _ _ h]
      · rw [GetEnvConfig_unparsable _ _ s _ h ha]
    simp only [BackgroundLoop, h10]
  · intro h parseIP e name r
    have h30 : (GetEnvConfig env "LOCAL_CLUSTER_DNS_RECORD_TTL".toList 30).1 = 30 := by
      rcases h with h | ⟨s, h, ha⟩
      · rw [GetEnvConfig_unset _ _ _ h]
      · rw [GetEnvConfig_unparsable _ _ s _ h ha]
    rw [responseFor_Answer, h30]
    exact ⟨rfl, by decide⟩

/-- C15, witness: the interval with the variable unset, set to `fast`, set
to `2.5`, set to the empty string, and set to `25`. -/
theorem GetEnvConfig_default_or_parsed_witness :
    GetEnvConfig [] "KUBELET_STATUS_SYNC_INTERVAL".toList 10 = (10, none) ∧
    (GetEnvConfig [("KUBELET_STATUS_SYNC_INTERVAL".toList, "fast".toList)]
      "KUBELET_STATUS_SYNC_INTERVAL".toList 10).1 = 10 ∧
    (GetEnvConfig [("KUBELET_STATUS_SYNC_INTERVAL".toList, "2.5".toList)]
      "KUBELET_STATUS_SYNC_INTERVAL".toList 10).1 = 10 ∧
    (GetEnvConfig [("KUBELET_STATUS_SYNC_INTERVAL".toList, [])]
      "KUBELET_STATUS_SYNC_INTERVAL".toList 10).1 = 10 ∧
    GetEnvConfig [("KUBELET_STATUS_SYNC_INTERVAL".toList, "25".toList)]
      "KUBELET_STATUS_SYNC_INTERVAL".toList 10 = (25, none) :=
  ⟨(GetEnvConfig_default_or_parsed [] "KUBELET_STATUS_SYNC_INTERVAL".toList 10).1 rfl,
    ((GetEnvConfig_default_or_parsed _ "KUBELET_STATUS_SYNC_INTERVAL".toList 10).2.1
      "fast".toList (by decide) (by decide)).1,
    ((GetEnvConfig_default_or_parsed _ "KUBELET_STATUS_SYNC_INTERVAL".toList 10).2.1
      "2.5".toList (by decide) (by decide)).1,
    ((GetEnvConfig_default_or_parsed _ "KUBELET_STATUS_SYNC_INTERVAL".toList 10).2.1
      [] (by decide) (by decide)).1,
    (GetEnvConfig_default_or_parsed _ "KUBELET_STATUS_SYNC_INTERVAL".toList 10).2.2.1
      "25".toList 25 (by decide) (by decide)⟩

/-! ## Lemmas on the directory -/

theorem foldl_append_singleton {α : Type} (l acc : List α) :
    l.foldl (fun dest rc => dest ++ [rc]) acc = acc ++ l := by
  induction l generalizing acc with
  | nil => simp
  | cons a t ih => simp [ih]

theorem Store.GetRecords_elems (st : Store) :
    st.GetRecords.1.elems st.GetRecords.2 = st.elems st.Records := by
  simp only [Store.GetRecords, Store.elems, foldl_append_singleton, List.nil_append]
  simp

theorem Store.GetRecords_frame (st : Store) (s : Slice) (hs : s.array < st.arrays.length) :
    st.GetRecords.1.elems s = st.elems s := by
  simp only [Store.GetRecords, Store.elems]
  rw [List.getElem?_append_left hs]

theorem Store.setElem_frame (st st2 : Store) (s t : Slice) (i : Nat) (rc : Ptr)
    (hne : s.array ≠ t.array) (hset : st.setElem s i rc = some st2) :
    st2.Records = st.Records ∧ st2.cells = st.cells ∧ st2.elems t = st.elems t := by
  unfold Store.setElem at hset
  split at hset
  · have h2 : st2 = { st with
        arrays := st.arrays.set s.array ((st.arrays[s.array]?.getD []).set i rc) } :=
      (Option.some.inj hset).symm
    subst h2
    refine ⟨rfl, rfl, ?_⟩
    simp only [Store.elems]
    rw [List.getElem?_set_ne hne]
  · cases hset

theorem Store.deref_congr (st st2 : Store) (s t : Slice)
    (hc : st2.cells = st.cells) (he : st2.elems s = st.elems t) :
    st2.deref s = st.deref t := by
  simp only [Store.deref, hc, he]

/-! ## C16: `GetRecords` after `UpdateRecords` -/

/-- C16: after `UpdateRecords(records)`, whatever the directory held before,
`GetRecords` returns the installed sequence: the same records in the same
order, and on the heap the same pointers in the same order.  The call leaves
the field `Records`, the record cells and the elements of the installed slice
as they were, and a second `GetRecords` returns an equal sequence. -/
theorem GetRecords_after_UpdateRecords :
    (∀ (e : Example) (records : List PodRecord),
      GetRecords (UpdateRecords e records) = records ∧
      (GetRecords (UpdateRecords e records)).length = records.length) ∧
    (∀ (st : Store) (records : Slice), records.array < st.arrays.length →
      (st.UpdateRecords records).GetRecords.1.elems (st.UpdateRecords records).GetRecords.2 =
        st.elems records ∧
      (st.UpdateRecords records).GetRecords.1.deref (st.UpdateRecords records).GetRecords.2 =
        st.deref records ∧
      (st.UpdateRecords records).GetRecords.1.Records = records ∧
      (st.UpdateRecords records).GetRecords.1.cells = st.cells ∧
      (st.UpdateRecords records).GetRecords.1.elems records = st.elems records ∧
      (st.UpdateRecords records).GetRecords.1.GetRecords.1.elems
          (st.UpdateRecords records).GetRecords.1.GetRecords.2 =
        (st.UpdateRecords records).GetRecords.1.elems (st.UpdateRecords records).GetRecords.2) := by
  constructor
  · intro e records
    have h : GetRecords (UpdateRecords e records) = records := MakeCopy_eq records
    exact ⟨h, by rw [h]⟩
  · intro st records hwf
    have hwf1 : (st.UpdateRecords records).Records.array <
        (st.UpdateRecords records).arrays.length := hwf
    have h1 : (st.UpdateRecords records).GetRecords.1.elems
        (st.UpdateRecords records).GetRecords.2 = st.elems records :=
      Store.GetRecords_elems (st.UpdateRecords records)
    have h5 : (st.UpdateRecords records).GetRecords.1.elems records = st.elems records :=
      Store.GetRecords_frame (st.UpdateRecords records) records hwf
    refine ⟨h1, ?_, rfl, rfl, h5, ?_⟩
    · exact Store.deref_congr st _ _ _ rfl h1
    · rw [Store.GetRecords_elems, h1]
      exact h5

/-- C16, witness: the store holding `foo`, after the slice over its array is
installed again. -/
theorem GetRecords_after_UpdateRecords_witness :
    (storeFoo.UpdateRecords { array := 0, len := 1 }).GetRecords.1.deref
        (storeFoo.UpdateRecords { array := 0, len := 1 }).GetRecords.2 =
      storeFoo.deref { array := 0, len := 1 } ∧
    storeFoo.deref { array := 0, len := 1 } =
      [{ Name := "foo".toList, Ip := "10.0.0.1".toList, Port := 80 }] ∧
    GetRecords (UpdateRecords (pluginWith none []) dirTwoFoo) = dirTwoFoo :=
  ⟨(GetRecords_after_UpdateRecords.2 storeFoo { array := 0, len := 1 } (by decide)).2.1,
    by decide, (GetRecords_after_UpdateRecords.1 (pluginWith none []) dirTwoFoo).1⟩

/-! ## C17: what the copy made by `GetRecords` shares -/

/-- C17 (as amended): `GetRecords` returns a slice over a new backing array
that holds the pointers of the directory.  An assignment a caller makes to an
element of the returned slice leaves the field `Records`, the record cells,
the pointers and records of the directory, and what a later `GetRecords`
returns as they were.  The records are not copied: every pointer of the
returned slice is a pointer of the directory, and a value a caller stores
through such a pointer is then among the records of the directory. -/
theorem GetRecords_copies_slice_not_records (st : Store)
    (hwf : st.Records.array < st.arrays.length) :
    st.GetRecords.2.array ≠ st.Records.array ∧
    (∀ (i : Nat) (rc : Ptr) (st2 : Store),
      st.GetRecords.1.setElem st.GetRecords.2 i rc = some st2 →
        st2.Records = st.Records ∧ st2.cells = st.cells ∧
        st2.elems st2.Records = st.elems st.Records ∧
        st2.deref st2.Records = st.deref st.Records ∧
        st2.GetRecords.1.elems st2.GetRecords.2 = st.elems st.Records) ∧
    st.GetRecords.1.elems st.GetRecords.2 = st.elems st.Records ∧
    (∀ (rc : Ptr) (v : PodRecord),
      rc ∈ st.GetRecords.1.elems st.GetRecords.2 → rc < st.cells.length →
        v ∈ (st.GetRecords.1.setCell rc v).deref (st.GetRecords.1.setCell rc v).Records) := by
  have hne : st.GetRecords.2.array ≠ st.Records.array := by
    show st.arrays.length ≠ st.Records.array
    omega
  refine ⟨hne, ?_, Store.GetRecords_elems st, ?_⟩
  · intro i rc st2 hset
    obtain ⟨hr, hc, he⟩ :=
      Store.setElem_frame st.GetRecords.1 st2 st.GetRecords.2 st.Records i rc hne hset
    have hr2 : st2.Records = st.Records := hr
    have he2 : st2.elems st2.Records = st.elems st.Records := by
      rw [hr2, he]
      exact Store.GetRecords_frame st st.Records hwf
    refine ⟨hr2, hc, he2, Store.deref_congr st st2 _ _ hc he2, ?_⟩
    rw [Store.GetRecords_elems]
    exact he2
  · intro rc v hmem hlt
    rw [Store.GetRecords_elems] at hmem
    have he : (st.GetRecords.1.setCell rc v).elems (st.GetRecords.1.setCell rc v).Records =
        st.elems st.Records := Store.GetRecords_frame st st.Records hwf
    simp only [Store.deref, he, List.mem_filterMap]
    refine ⟨rc, hmem, ?_⟩
    show (st.cells.set rc v)[rc]? = some v
    exact List.getElem?_set_self hlt

/-- C17, witness: in the store holding `foo`, pointing the first element of
the returned slice elsewhere leaves the directory at `foo`. -/
theorem GetRecords_copies_slice_not_records_witness :
    storeFoo.GetRecords.1.setElem storeFoo.GetRecords.2 0 5 =
      some { storeFoo with arrays := [[0], [5]] } ∧
    ({ storeFoo with arrays := [[0], [5]] } : Store).deref
        ({ storeFoo with arrays := [[0], [5]] } : Store).Records =
      storeFoo.deref storeFoo.Records :=
  ⟨by decide,
    ((GetRecords_copies_slice_not_records storeFoo (by decide)).2.1 0 5
      { storeFoo with arrays := [[0], [5]] } (by decide)).2.2.2.1⟩

/-- C17, counterexample: the directory holds `foo`; a caller takes the first
pointer of the slice `GetRecords` returned and stores the record `evil`
through it; the directory then holds `evil`, and so does what a later
`GetRecords` returns. -/
theorem GetRecords_independent_copy_counterexample :
    storeFoo.deref storeFoo.Records =
      [{ Name := "foo".toList, Ip := "10.0.0.1".toList, Port := 80 }] ∧
    storeFoo.GetRecords.1.elems storeFoo.GetRecords.2 = [0] ∧
    (storeFoo.GetRecords.1.setCell 0 { Name := "evil".toList, Ip := "6.6.6.6".toList, Port := 1 }).deref
        (storeFoo.GetRecords.1.setCell 0
          { Name := "evil".toList, Ip := "6.6.6.6".toList, Port := 1 }).Records =
      [{ Name := "evil".toList, Ip := "6.6.6.6".toList, Port := 1 }] ∧
    (storeFoo.GetRecords.1.setCell 0
        { Name := "evil".toList, Ip := "6.6.6.6".toList, Port := 1 }).GetRecords.1.deref
      (storeFoo.GetRecords.1.setCell 0
        { Name := "evil".toList, Ip := "6.6.6.6".toList, Port := 1 }).GetRecords.2 =
      [{ Name := "evil".toList, Ip := "6.6.6.6".toList, Port := 1 }] := by
  decide

/-! ## Lemmas on the bounds of the name cut -/

theorem LastIndex_le_len (s substr : GoString) : LastIndex s substr ≤ (len s : Int) := by
  induction s with
  | nil =>
    simp only [LastIndex, len]
    split <;> simp
  | cons c t ih =>
    simp only [LastIndex, len]
    push_cast
    split
    · omega
    · split <;> omega

theorem LastIndex_le_length_of_isASCII (s substr : GoString) (h : isASCII s = true) :
    LastIndex s substr ≤ (s.length : Int) := by
  have := LastIndex_le_len s substr
  rw [len_of_isASCII h] at this
  exact this

theorem recordName_defined (name : GoString)
    (h : LastIndex name ['-'] ≤ (name.length : Int)) :
    ∃ cut : GoString, recordName name = some cut := by
  simp only [recordName]
  split
  · rename_i hpos
    exact ⟨name.take (LastIndex name ['-']).toNat, runesTo_of_le name _ (by omega) h⟩
  · exact ⟨name, rfl⟩

/-! ## C19: `GetUserPodRecords` on pods with a container and a port -/

/-- A sufficient condition for `GetUserPodRecords` to complete: when every
pod labelled `userPod="true"` has a first container that declares a port, and
the byte offset of the last `-` in its name is at most the number of runes of
the name (as in every ASCII name), the function returns one record for each
labelled pod, in pod order, whose `Ip` is the pod's `Status.PodIP` and whose
`Port` is the first port of the first container. -/
theorem GetUserPodRecords_completes (pods : List Pod)
    (h : ∀ p ∈ pods, p.isUserPod = true →
      (∃ c cs port ps, p.Spec.Containers = c :: cs ∧ c.Ports = port :: ps) ∧
      LastIndex p.Name ['-'] ≤ (p.Name.length : Int)) :
    (∃ records : List PodRecord,
      GetUserPodRecords pods = some records ∧
      List.Forall₂
        (fun (p : Pod) (rc : PodRecord) =>
          rc.Ip = p.Status.PodIP ∧
          ∃ c cs port ps, p.Spec.Containers = c :: cs ∧ c.Ports = port :: ps ∧
            rc.Port = port.ContainerPort)
        (pods.filter Pod.isUserPod) records) ∧
    (∀ name : GoString, isASCII name = true →
      LastIndex name ['-'] ≤ (name.length : Int)) := by
  refine ⟨?_, fun name hn => LastIndex_le_length_of_isASCII name ['-'] hn⟩
  induction pods with
  | nil => exact ⟨[], rfl, List.Forall₂.nil⟩
  | cons p ps ih =>
    obtain ⟨rest, hrest, hall⟩ := ih (fun q hq => h q (List.mem_cons_of_mem _ hq))
    by_cases hp : p.isUserPod = true
    · obtain ⟨⟨c, cs, port, pts, hc, hpt⟩, hidx⟩ := h p (List.mem_cons_self p ps) hp
      obtain ⟨cut, hcut⟩ := recordName_defined p.Name hidx
      have hrc : userPodRecord p =
          some { Name := cut, Ip := p.Status.PodIP, Port := port.ContainerPort } := by
        simp only [userPodRecord, hcut, hc, hpt]
      refine ⟨{ Name := cut, Ip := p.Status.PodIP, Port := port.ContainerPort } :: rest, ?_, ?_⟩
      · rw [GetUserPodRecords_cons, if_pos hp, hrc, hrest]
        rfl
      · rw [List.filter_cons_of_pos hp]
        exact List.Forall₂.cons ⟨rfl, c, cs, port, pts, hc, hpt, rfl⟩ hall
    · refine ⟨rest, ?_, ?_⟩
      · rw [GetUserPodRecords_cons, if_neg hp, hrest]
      · rw [List.filter_cons_of_neg hp]
        exact hall

/-- Example of the sufficient condition: an unlabelled pod without containers,
then two labelled pods. -/
theorem GetUserPodRecords_completes_witness :
    ∃ records : List PodRecord,
      GetUserPodRecords
          [{ systemPod "etcd-0" "10.0.0.3" 2379 with Spec := { Containers := [] } },
           userPod "resnet50-abc123" "10.0.0.5" 8080, userPod "bert" "10.0.0.6" 9090] =
        some records ∧
      List.Forall₂
        (fun (p : Pod) (rc : PodRecord) =>
          rc.Ip = p.Status.PodIP ∧
          ∃ c cs port ps, p.Spec.Containers = c :: cs ∧ c.Ports = port :: ps ∧
            rc.Port = port.ContainerPort)
        ([{ systemPod "etcd-0" "10.0.0.3" 2379 with Spec := { Containers := [] } },
          userPod "resnet50-abc123" "10.0.0.5" 8080,
          userPod "bert" "10.0.0.6" 9090].filter Pod.isUserPod) records :=
  (GetUserPodRecords_completes
    [{ systemPod "etcd-0" "10.0.0.3" 2379 with Spec := { Containers := [] } },
     userPod "resnet50-abc123" "10.0.0.5" 8080, userPod "bert" "10.0.0.6" 9090]
    (by
      intro p hp hl
      simp only [List.mem_cons, List.mem_singleton, List.not_mem_nil, or_false] at hp
      rcases hp with rfl | rfl | rfl
      · exact absurd hl (by decide)
      · exact ⟨⟨_, _, _, _, rfl, rfl⟩, by decide⟩
      · exact ⟨⟨_, _, _, _, rfl, rfl⟩, by decide⟩)).1

set_option maxRecDepth 20000 in
/-- C19 (what the code does at the failing input): the labelled pod named by
forty `é`, then `-x`, has one container with one port.  The `-` is at byte
offset 80; `[]rune(name)` has 42 runes and the capacity 44, so the slice
expression `[]rune(name)[:80]` at line 140 panics and `GetUserPodRecords` does
not complete.  For the labelled pod `ééé-x` the offset 6 is within the capacity
32 of the five runes: the function completes, with the `Ip` and `Port` of the
pod and a zero rune at the end of the name. -/
theorem GetUserPodRecords_slice_bounds_panic :
    ((userPod (String.mk (List.replicate 40 'é' ++ ['-', 'x'])) "10.0.0.5" 8080).isUserPod = true ∧
      (userPod (String.mk (List.replicate 40 'é' ++ ['-', 'x'])) "10.0.0.5" 8080).Spec.Containers =
        [{ Ports := [{ ContainerPort := 8080 }] }] ∧
      LastIndex (List.replicate 40 'é' ++ ['-', 'x']) ['-'] = 80 ∧
      (List.replicate 40 'é' ++ ['-', 'x']).length = 42 ∧
      runeCap 42 = 44 ∧
      GetUserPodRecords
        [userPod (String.mk (List.replicate 40 'é' ++ ['-', 'x'])) "10.0.0.5" 8080] = none) ∧
    (LastIndex "ééé-x".toList ['-'] = 6 ∧ "ééé-x".toList.length = 5 ∧ runeCap 5 = 32 ∧
      GetUserPodRecords [userPod "ééé-x" "10.0.0.5" 8080] =
        some [{ Name := "ééé-x".toList ++ [Char.ofNat 0], Ip := "10.0.0.5".toList,
                Port := 8080 }]) := by
  decide

/-! ## C20: the scope test looks at the characters only -/

/-- C20: the query name `mycluster.local.`, in which `cluster.local.` does not
start a label, is handled as in scope: the handler looks up the name `my`,
writes its own response and does not call the next handler; and for the query
name `cluster.local.` it looks up the empty name. -/
theorem ServeDNS_WhoAmI_scope_ignores_labels
    (parseIP : GoString → Option IPv4) (env : Environ) (e : Example) (r : Msg) :
    (QName r = "mycluster.local.".toList →
      candidateName (QName r) = some "my".toList ∧
      ServeDNS_WhoAmI parseIP env e r =
        some { code := RcodeSuccess, err := none,
               events := [Event.getRecords,
                          Event.writeMsg (responseFor parseIP env e "my".toList r)] }) ∧
    (QName r = "cluster.local.".toList →
      candidateName (QName r) = some [] ∧
      ServeDNS_WhoAmI parseIP env e r =
        some { code := RcodeSuccess, err := none,
               events := [Event.getRecords,
                          Event.writeMsg (responseFor parseIP env e [] r)] }) := by
  constructor
  · intro hq
    have hc : candidateName (QName r) = some "my".toList := by rw [hq]; decide
    refine ⟨hc, ?_⟩
    rw [ServeDNS_WhoAmI_in_scope parseIP env e r "my".toList (by rw [hq]; decide) hc]
    rfl
  · intro hq
    have hc : candidateName (QName r) = some [] := by rw [hq]; decide
    refine ⟨hc, ?_⟩
    rw [ServeDNS_WhoAmI_in_scope parseIP env e r [] (by rw [hq]; decide) hc]
    rfl

/-- C20, witness: with a record named `my` in the directory, the query
`mycluster.local.` is answered with its address, and the next handler is not
called. -/
theorem ServeDNS_WhoAmI_scope_ignores_labels_witness :
    ServeDNS_WhoAmI parseIPv4 []
        (pluginWith (some refusing) [{ Name := "my".toList, Ip := "10.0.0.9".toList, Port := 80 }])
        (query "mycluster.local.") =
      some { code := RcodeSuccess, err := none,
             events := [Event.getRecords,
               Event.writeMsg (responseFor parseIPv4 []
                 (pluginWith (some refusing)
                   [{ Name := "my".toList, Ip := "10.0.0.9".toList, Port := 80 }])
                 "my".toList (query "mycluster.local."))] } ∧
    (responseFor parseIPv4 []
        (pluginWith (some refusing) [{ Name := "my".toList, Ip := "10.0.0.9".toList, Port := 80 }])
        "my".toList (query "mycluster.local.")).Answer.map (fun a => a.A) =
      [some [10, 0, 0, 9]] :=
  ⟨((ServeDNS_WhoAmI_scope_ignores_labels parseIPv4 []
      (pluginWith (some refusing) [{ Name := "my".toList, Ip := "10.0.0.9".toList, Port := 80 }])
      (query "mycluster.local.")).1 rfl).2,
    by decide⟩

/-! ## Lemmas on `removeHostName` -/

theorem len_pos_iff (s : GoString) : len s > 0 ↔ s ≠ [] := by
  cases s with
  | nil => simp [len]
  | cons c t =>
    have := Char.utf8Size_pos c
    simp only [len, ne_eq, reduceCtorEq, not_false_eq_true, iff_true]
    omega

theorem HasSuffix_iff (s suffix : GoString) :
    HasSuffix s suffix = true ↔ ∃ base, s = base ++ suffix := by
  simp only [HasSuffix]
  rw [List.isSuffixOf_iff_suffix]
  constructor
  · rintro ⟨t, ht⟩
    exact ⟨t, ht.symm⟩
  · rintro ⟨t, ht⟩
    exact ⟨t, ht.symm⟩

theorem TrimSuffix_append (base suffix : GoString) :
    TrimSuffix (base ++ suffix) suffix = base := by
  simp [TrimSuffix, HasSuffix_append]

theorem TrimSuffix_of_not_suffix (s suffix : GoString)
    (h : ¬ ∃ base, s = base ++ suffix) : TrimSuffix s suffix = s := by
  have hs : ¬ HasSuffix s suffix = true := fun hh => h ((HasSuffix_iff s suffix).mp hh)
  simp only [TrimSuffix, hs]
  rfl

theorem removeHostName_of_ne_nil (kc : Client) (pods : List Pod) (h : kc.instanceId ≠ []) :
    kc.removeHostName pods =
      pods.map (fun pod => { pod with Name := TrimSuffix pod.Name ('-' :: kc.instanceId) }) := by
  simp only [Client.removeHostName, (len_pos_iff kc.instanceId).mpr h, if_true]

theorem removeHostName_of_nil (kc : Client) (pods : List Pod) (h : kc.instanceId = []) :
    kc.removeHostName pods = pods := by
  simp [Client.removeHostName, h, len]

/-! ## C21: `removeHostName` -/

/-- C21: with an empty instance id `removeHostName` changes no pod.  With a
non-empty one it keeps the number and the order of the pods and, of each pod,
the labels, the spec and the status; the `Name` loses one trailing
`-<instanceId>` when it ends in it and is unchanged otherwise.  `GetPodsInfo`
returns the pods so renamed, so for a labelled pod named
`pre-post-<instanceId>`, with no `-` in `post` and `pre` non-empty and ASCII,
the record `GetUserPodRecords` builds is named `pre`; in general the records
are those of the pod with the name cut by `removeHostName`. -/
theorem removeHostName_trims_instance_id (kc : Client) (pods : List Pod) :
    (kc.instanceId = [] → kc.removeHostName pods = pods) ∧
    (kc.instanceId ≠ [] →
      (kc.removeHostName pods).length = pods.length ∧
      List.Forall₂
        (fun (pod out : Pod) =>
          out.Labels = pod.Labels ∧ out.Spec = pod.Spec ∧ out.Status = pod.Status ∧
          (∀ base : GoString, pod.Name = base ++ '-' :: kc.instanceId → out.Name = base) ∧
          ((¬ ∃ base : GoString, pod.Name = base ++ '-' :: kc.instanceId) →
            out.Name = pod.Name))
        pods (kc.removeHostName pods)) ∧
    (∀ (unmarshal : Unmarshal) (data : Bytes) (status : Int),
      kc.GetPodsInfo unmarshal (.ok (data, status)) =
        .ok (kc.removeHostName (unmarshal data).1.Items)) ∧
    (∀ (pod : Pod) (base : GoString),
      kc.instanceId ≠ [] → pod.Name = base ++ '-' :: kc.instanceId →
        GetUserPodRecords (kc.removeHostName [pod]) =
          GetUserPodRecords [{ pod with Name := base }]) ∧
    (∀ (pod : Pod) (pre post : GoString) (c : Container) (cs : List Container)
        (port : ContainerPort) (ps : List ContainerPort),
      kc.instanceId ≠ [] → pod.isUserPod = true →
      pod.Name = (pre ++ '-' :: post) ++ '-' :: kc.instanceId →
      '-' ∉ post → pre ≠ [] → isASCII pre = true →
      pod.Spec.Containers = c :: cs → c.Ports = port :: ps →
        GetUserPodRecords (kc.removeHostName [pod]) =
          some [{ Name := pre, Ip := pod.Status.PodIP, Port := port.ContainerPort }]) := by
  refine ⟨removeHostName_of_nil kc pods, ?_, fun _ _ _ => rfl, ?_, ?_⟩
  · intro hne
    rw [removeHostName_of_ne_nil kc pods hne]
    refine ⟨List.length_map _ _, ?_⟩
    induction pods with
    | nil => exact List.Forall₂.nil
    | cons p ps ih =>
      rw [List.map_cons]
      refine List.Forall₂.cons ⟨rfl, rfl, rfl, ?_, ?_⟩ ih
      · intro base hbase
        show TrimSuffix p.Name ('-' :: kc.instanceId) = base
        rw [hbase, TrimSuffix_append]
      · intro hno
        exact TrimSuffix_of_not_suffix p.Name ('-' :: kc.instanceId) hno
  · intro pod base hne hname
    rw [removeHostName_of_ne_nil kc [pod] hne, List.map_cons, List.map_nil, hname,
      TrimSuffix_append]
  · intro pod pre post c cs port ps hne hlabel hname hpost hpre hascii hc hp
    rw [removeHostName_of_ne_nil kc [pod] hne, List.map_cons, List.map_nil,
      GetUserPodRecords_cons]
    have hl : Pod.isUserPod
        { pod with Name := TrimSuffix pod.Name ('-' :: kc.instanceId) } = true := hlabel
    rw [if_pos hl]
    simp only [userPodRecord, hname, TrimSuffix_append,
      recordName_cut pre post hpost hpre hascii, hc, hp]
    rfl

/-- C21, witness: with the instance id `node7`, the labelled pod
`resnet50-abc123-node7` is renamed `resnet50-abc123` and its record is named
`resnet50`; the pod `bert-node70` is left as it is. -/
theorem removeHostName_trims_instance_id_witness :
    GetUserPodRecords
        (Client.removeHostName { instanceId := "node7".toList }
          [userPod "resnet50-abc123-node7" "10.0.0.5" 8080]) =
      some [{ Name := "resnet50".toList, Ip := "10.0.0.5".toList, Port := 8080 }] ∧
    Client.removeHostName { instanceId := "node7".toList }
        [userPod "resnet50-abc123-node7" "10.0.0.5" 8080, userPod "bert-node70" "10.0.0.6" 9090] =
      [userPod "resnet50-abc123" "10.0.0.5" 8080, userPod "bert-node70" "10.0.0.6" 9090] :=
  ⟨(removeHostName_trims_instance_id { instanceId := "node7".toList } []).2.2.2.2
      (userPod "resnet50-abc123-node7" "10.0.0.5" 8080) "resnet50".toList "abc123".toList
      { Ports := [{ ContainerPort := 8080 }] } [] { ContainerPort := 8080 } []
      (by decide) (by decide) (by decide) (by decide) (by decide) (by decide) rfl rfl,
    by decide⟩

/-! ## C22: the TTL as an unsigned 32-bit value -/

/-- C22: every answer of a response carries the TTL `uint32(ttl)`, the value
`ttl` returned by `GetEnvConfig` taken modulo 2^32: a setting that parses to an
integer from 0 to 2^32-1 is the TTL itself, and the setting `-1` gives the TTL
4294967295, neither an error nor the default 30. -/
theorem answer_ttl_is_uint32
    (parseIP : GoString → Option IPv4) (env : Environ) (e : Example) (name : GoString)
    (r : Msg) :
    (∀ a ∈ (responseFor parseIP env e name r).Answer,
      (a.Hdr.Ttl : Int) =
        (GetEnvConfig env "LOCAL_CLUSTER_DNS_RECORD_TTL".toList 30).1 % (2 : Int) ^ 32 ∧
      a.Hdr.Ttl < 2 ^ 32) ∧
    (∀ (s : GoString) (v : Int),
      LookupEnv env "LOCAL_CLUSTER_DNS_RECORD_TTL".toList = some s → Atoi s = some v →
      0 ≤ v → v < (2 : Int) ^ 32 →
        ∀ a ∈ (responseFor parseIP env e name r).Answer, (a.Hdr.Ttl : Int) = v) ∧
    (LookupEnv env "LOCAL_CLUSTER_DNS_RECORD_TTL".toList = some "-1".toList →
      GetEnvConfig env "LOCAL_CLUSTER_DNS_RECORD_TTL".toList 30 = (-1, none) ∧
      ∀ a ∈ (responseFor parseIP env e name r).Answer, a.Hdr.Ttl = 4294967295) := by
  have httl : ∀ a ∈ (responseFor parseIP env e name r).Answer,
      a.Hdr.Ttl = toUint32 (GetEnvConfig env "LOCAL_CLUSTER_DNS_RECORD_TTL".toList 30).1 := by
    intro a ha
    rw [responseFor_Answer, List.mem_map] at ha
    obtain ⟨rc, _, rfl⟩ := ha
    rfl
  have hmod : ∀ t : Int, ((toUint32 t : Nat) : Int) = t % (2 : Int) ^ 32 := by
    intro t
    simp only [toUint32]
    exact Int.toNat_of_nonneg (Int.emod_nonneg t (by norm_num))
  refine ⟨?_, ?_, ?_⟩
  · intro a ha
    rw [httl a ha]
    refine ⟨hmod _, ?_⟩
    have h1 := hmod (GetEnvConfig env "LOCAL_CLUSTER_DNS_RECORD_TTL".toList 30).1
    have h2 : (GetEnvConfig env "LOCAL_CLUSTER_DNS_RECORD_TTL".toList 30).1 % (2 : Int) ^ 32
        < (2 : Int) ^ 32 := Int.emod_lt_of_pos _ (by norm_num)
    have h3 : ((toUint32 (GetEnvConfig env "LOCAL_CLUSTER_DNS_RECORD_TTL".toList 30).1 : Nat) : Int)
        < (2 : Int) ^ 32 := by rw [h1]; exact h2
    exact_mod_cast h3
  · intro s v hset hatoi h0 h32 a ha
    rw [httl a ha, hmod, GetEnvConfig_parsed env _ s 30 v hset hatoi]
    exact Int.emod_eq_of_lt h0 h32
  · intro hset
    have hcfg : GetEnvConfig env "LOCAL_CLUSTER_DNS_RECORD_TTL".toList 30 = (-1, none) :=
      GetEnvConfig_parsed env _ "-1".toList 30 (-1) hset (by decide)
    refine ⟨hcfg, ?_⟩
    intro a ha
    rw [httl a ha, hcfg]
    decide

/-- C22, witness: with `LOCAL_CLUSTER_DNS_RECORD_TTL=-1` the answer to
`bar.cluster.local.` has the TTL 4294967295; with `4294967296` it has the
TTL 0, and with `86400` the TTL 86400. -/
theorem answer_ttl_is_uint32_witness :
    (GetEnvConfig [("LOCAL_CLUSTER_DNS_RECORD_TTL".toList, "-1".toList)]
        "LOCAL_CLUSTER_DNS_RECORD_TTL".toList 30 = (-1, none)) ∧
    (responseFor parseIPv4 [("LOCAL_CLUSTER_DNS_RECORD_TTL".toList, "-1".toList)]
        (pluginWith none dirTwoFoo) "bar".toList (query "bar.cluster.local.")).Answer.map
      (fun a => a.Hdr.Ttl) = [4294967295] ∧
    (responseFor parseIPv4 [("LOCAL_CLUSTER_DNS_RECORD_TTL".toList, "4294967296".toList)]
        (pluginWith none dirTwoFoo) "bar".toList (query "bar.cluster.local.")).Answer.map
      (fun a => a.Hdr.Ttl) = [0] ∧
    (responseFor parseIPv4 [("LOCAL_CLUSTER_DNS_RECORD_TTL".toList, "86400".toList)]
        (pluginWith none dirTwoFoo) "bar".toList (query "bar.cluster.local.")).Answer.map
      (fun a => a.Hdr.Ttl) = [86400] :=
  ⟨((answer_ttl_is_uint32 parseIPv4 [("LOCAL_CLUSTER_DNS_RECORD_TTL".toList, "-1".toList)]
      (pluginWith none dirTwoFoo) "bar".toList (query "bar.cluster.local.")).2.2 rfl).1,
    by decide, by decide, by decide⟩

end KubeletDNS
